import Mathlib

/-!
Verification of the reminder / digest scheduling subsystem of the `max`
chat-assistant bot.

The embedding models, in order:
  * the data model (`Task`, `Reminder`, `UserPreference`) following
    `prisma/migrations/.../migration.sql` and the TypeScript sources;
  * `ReminderService` (`src/services/reminderService.ts`) as a pure state
    machine: the persistent store is a list of rows, the in-memory
    `jobs : Map<string, Job>` is an association list from reminder id to a
    timer identifier, and every timer ever created by the service is kept in
    a history list `timers` with a `cancelled` flag, so "at most one live
    timer" properties are statable;
  * `ScheduledDigestService` (shipped in the repository with an unnamed
    source file, `ScheduledDigestService`) in the same style;
  * the reminder-creation fragment of `TaskService.createOrUpdateTask`
    (`src/services/taskService.ts`) together with
    `PreferenceService.getOrCreate`.

Times are integers (milliseconds since the Unix epoch, i.e. `Date.getTime()`
values).  Asynchronous effects are made explicit: the injected delivery
handler's success is a boolean parameter `handlerOk`, the success of the
store write in `markDelivered` is `storeOk`, and thrown JS errors are carried
as strings.
-/

namespace MaxBot

/-- `JOB_OFFSET_MS` from `src/services/reminderService.ts`: the 5 second
grace window around "now". -/
def JOB_OFFSET_MS : Int := 5000

/-- A `Task` row (only the fields the scheduling subsystem reads). -/
structure Task where
  id : String
  dueDate : Option Int := none
  assigneeId : Option Int := none
  deriving DecidableEq, Repr

/-- A `Reminder` row: `id TEXT, taskId TEXT, remindAt TIMESTAMP, userId TEXT
NULL, delivered BOOLEAN DEFAULT FALSE` (the prisma migration). -/
structure Reminder where
  id : String
  taskId : String
  userId : Option Int := none
  remindAt : Int
  delivered : Bool := false
  deriving DecidableEq, Repr

/-- Severity levels of the `logger` wrapper. -/
inductive LogLevel where
  | error
  | warn
  | debug
  deriving DecidableEq, Repr

/-- One structured log call: level, message, and the context-object fields
(key/value pairs, values rendered as strings). -/
structure LogEntry where
  level : LogLevel
  message : String
  fields : List (String × String) := []
  deriving DecidableEq, Repr

/-- Whether a string occurs inside another (used to ask whether a log entry
mentions an identifier anywhere in its keys or values). -/
def strContains (s pat : String) : Bool :=
  (List.range (s.data.length + 1)).any fun i => pat.data.isPrefixOf (s.data.drop i)

/-- A log entry mentions an identifier when the identifier occurs in the
message or in a key or value of its context fields. -/
def logMentions (e : LogEntry) (idv : String) : Bool :=
  strContains e.message idv ||
    e.fields.any fun p => strContains p.1 idv || strContains p.2 idv

/-- One `node-schedule` one-shot job ever created by `ReminderService`: its
identity `tid`, the wall-clock fire time it was registered for, the reminder
and task captured by its callback closure, and whether `cancel()` has been
called on it. -/
structure TimerRec where
  tid : Nat
  runAt : Int
  reminder : Reminder
  task : Task
  cancelled : Bool
  deriving DecidableEq, Repr

/-- The whole observable state of a `ReminderService` instance together with
the persistent store it talks to.

`store`/`tasks` are the durable rows; `jobs` is the in-memory
`Map<string, Job>` (reminder id, timer id); `timers` is the history of every
timer created, with cancellation flags; `fired` records each invocation of
the injected delivery handler as a (reminder id, task id) pair, in order;
`logs` records `logger` calls; `nextTid`/`nextRid` are fresh-name counters
for timers and database-generated reminder ids. -/
structure ServiceState where
  store : List Reminder
  tasks : List Task
  jobs : List (String × Nat) := []
  timers : List TimerRec := []
  handlerSet : Bool := false
  fired : List (String × String) := []
  logs : List LogEntry := []
  nextTid : Nat := 0
  nextRid : Nat := 0
  deriving DecidableEq, Repr

/-- A fresh service instance over a given store: empty timer map, no handler
registered yet (module load time, before `init`). -/
def mkService (store : List Reminder) (tasks : List Task) : ServiceState :=
  { store := store, tasks := tasks }

/-- `Map.get` on the association-list model of a JS `Map`. -/
def mapLookup (m : List (String × Nat)) (k : String) : Option Nat :=
  (m.find? fun p => p.1 == k).map (·.2)

/-- `Map.delete` on the association-list model. -/
def mapErase (m : List (String × Nat)) (k : String) : List (String × Nat) :=
  m.filter fun p => p.1 != k

/-- `Map.set` on the association-list model. -/
def mapSet (m : List (String × Nat)) (k : String) (v : Nat) : List (String × Nat) :=
  mapErase m k ++ [(k, v)]

/-- `job.cancel()`: mark the timer with the given identity cancelled. -/
def cancelTid (ts : List TimerRec) (tid : Nat) : List TimerRec :=
  ts.map fun t => if t.tid = tid then { t with cancelled := true } else t

/-- Look a timer up by its identity. -/
def findTimer (ts : List TimerRec) (tid : Nat) : Option TimerRec :=
  ts.find? fun t => t.tid == tid

/-- The live (non-cancelled) timer currently reachable through the `jobs`
map for a reminder identifier, if any. -/
def liveTimer (s : ServiceState) (rid : String) : Option TimerRec :=
  (mapLookup s.jobs rid).bind fun tid =>
    (findTimer s.timers tid).bind fun t =>
      if t.cancelled then none else some t

/-- All non-cancelled timers ever created for a reminder identifier,
whether or not the map still points at them. -/
def liveTimersFor (s : ServiceState) (rid : String) : List TimerRec :=
  s.timers.filter fun t => t.reminder.id == rid && !t.cancelled

/-- Errors a store (prisma) call can reject with. -/
inductive StoreError where
  | recordNotFound
  | ioFailure
  deriving DecidableEq, Repr

/-- `prisma.reminder.update({ where: { id }, data: { delivered: true } })`:
an unconditional update by id on a required record.  It rejects with the
I/O error when the connection fails (`ioOk = false`) and with prisma's
record-not-found error when no row has the id; otherwise it sets the
`delivered` flag of the matching row. -/
def storeMarkDelivered (store : List Reminder) (rid : String) (ioOk : Bool) :
    Except StoreError (List Reminder) :=
  if !ioOk then .error .ioFailure
  else if store.any (fun r => r.id == rid) then
    .ok (store.map fun r => if r.id == rid then { r with delivered := true } else r)
  else .error .recordNotFound

/-- `ReminderService.markDelivered`: update the store row, then cancel and
drop the in-memory timer entry if one exists.  A store rejection propagates
to the caller before the map is touched; the returned state is then the
input state. -/
def markDelivered (s : ServiceState) (rid : String) (ioOk : Bool) :
    ServiceState × Option StoreError :=
  match storeMarkDelivered s.store rid ioOk with
  | .error e => (s, some e)
  | .ok store' =>
    match mapLookup s.jobs rid with
    | some tid =>
      ({ s with store := store', timers := cancelTid s.timers tid,
                jobs := mapErase s.jobs rid }, none)
    | none => ({ s with store := store' }, none)

/-- `ReminderService.triggerReminder`: abort with a log when no handler is
configured; otherwise invoke the handler and mark delivered, with one
`try/catch` around both.  `handlerOk` is whether the handler resolved,
`storeOk` whether the `markDelivered` store write would succeed, and `msg`
the rendering of the caught error. -/
def triggerReminder (s : ServiceState) (r : Reminder) (t : Task)
    (handlerOk storeOk : Bool) (msg : String) : ServiceState :=
  if !s.handlerSet then
    { s with logs := s.logs ++ [⟨.error, "Reminder handler is not configured", []⟩] }
  else if !handlerOk then
    { s with fired := s.fired ++ [(r.id, t.id)],
             logs := s.logs ++
               [⟨.error, "Ошибка обработки напоминания",
                 [("error", msg), ("location", "processReminder")]⟩] }
  else
    match markDelivered { s with fired := s.fired ++ [(r.id, t.id)] } r.id storeOk with
    | (s₂, none) => s₂
    | (s₂, some _) =>
      { s₂ with logs := s₂.logs ++
          [⟨.error, "Ошибка обработки напоминания",
            [("error", msg), ("location", "processReminder")]⟩] }

/-- The first block of `ReminderService.scheduleJob`: cancel the existing
in-memory timer for the reminder id, if any (the map entry itself is left in
place; the immediate branch never rewrites it). -/
def cancelExisting (s : ServiceState) (rid : String) : ServiceState :=
  match mapLookup s.jobs rid with
  | some tid => { s with timers := cancelTid s.timers tid }
  | none => s

/-- `ReminderService.scheduleJob`: cancel any existing timer for the id;
then either fire at once (when `remindAt <= now + JOB_OFFSET_MS`) or
register a one-shot timer for wall-clock time `remindAt` and store its
handle in the map under the reminder id. -/
def scheduleJob (s : ServiceState) (r : Reminder) (t : Task) (now : Int)
    (handlerOk storeOk : Bool) (msg : String) : ServiceState :=
  if r.remindAt ≤ now + JOB_OFFSET_MS then
    triggerReminder (cancelExisting s r.id) r t handlerOk storeOk msg
  else
    { cancelExisting s r.id with
      timers := (cancelExisting s r.id).timers ++
        [⟨(cancelExisting s r.id).nextTid, r.remindAt, r, t, false⟩],
      jobs := mapSet (cancelExisting s r.id).jobs r.id (cancelExisting s r.id).nextTid,
      nextTid := (cancelExisting s r.id).nextTid + 1 }

/-- The database-generated id of the `n`-th created reminder row. -/
def freshRid (n : Nat) : String :=
  "rem-" ++ toString n

/-- The row `prisma.reminder.create` builds for `scheduleReminder`
(`delivered` defaults to false, the id is database-generated). -/
def newReminder (s : ServiceState) (t : Task) (remindAt : Int)
    (userId : Option Int) : Reminder :=
  { id := freshRid s.nextRid, taskId := t.id, userId := userId,
    remindAt := remindAt, delivered := false }

/-- `ReminderService.scheduleReminder`: persist a new reminder row and
schedule it. -/
def scheduleReminder (s : ServiceState) (t : Task) (remindAt : Int)
    (userId : Option Int) (now : Int) (handlerOk storeOk : Bool) (msg : String) :
    ServiceState × Reminder :=
  (scheduleJob
      { s with store := s.store ++ [newReminder s t remindAt userId],
               nextRid := s.nextRid + 1 }
      (newReminder s t remindAt userId) t now handlerOk storeOk msg,
   newReminder s t remindAt userId)

/-- The `findMany` filter of `restorePendingReminders`:
`delivered = false && remindAt >= now - JOB_OFFSET_MS`. -/
def pendingFilter (now : Int) (r : Reminder) : Bool :=
  !r.delivered && decide (now - JOB_OFFSET_MS ≤ r.remindAt)

/-- The rows `restorePendingReminders` fetches, each joined (`include`) with
its task. -/
def pendingRows (s : ServiceState) (now : Int) : List (Reminder × Task) :=
  (s.store.filter (pendingFilter now)).filterMap fun r =>
    (s.tasks.find? fun t => t.id == r.taskId).map fun t => (r, t)

/-- Schedule a fetched row list in order (the `forEach` loop). -/
def processAll (s : ServiceState) (rows : List (Reminder × Task)) (now : Int)
    (handlerOk storeOk : Bool) (msg : String) : ServiceState :=
  rows.foldl (fun acc p => scheduleJob acc p.1 p.2 now handlerOk storeOk msg) s

/-- `ReminderService.restorePendingReminders`: fetch the undelivered rows
inside the grace window and schedule each one. -/
def restorePendingReminders (s : ServiceState) (now : Int)
    (handlerOk storeOk : Bool) (msg : String) : ServiceState :=
  processAll s (pendingRows s now) now handlerOk storeOk msg

/-- `ReminderService.init`: register the delivery handler, then run the
recovery sweep. -/
def ReminderService.init (s : ServiceState) (now : Int)
    (handlerOk storeOk : Bool) (msg : String) : ServiceState :=
  restorePendingReminders { s with handlerSet := true } now handlerOk storeOk msg

/-- The operations the surrounding application can invoke on the reminder
scheduler, plus the timer engine firing a due timer.  Each carries the
environment of its run: the wall clock, the handler / store outcomes and the
rendering of any caught error. -/
inductive Op where
  | schedule (t : Task) (remindAt : Int) (userId : Option Int) (now : Int)
      (handlerOk storeOk : Bool) (msg : String)
  | deliver (rid : String) (ioOk : Bool)
  | initService (now : Int) (handlerOk storeOk : Bool) (msg : String)
  | fireTimer (tid : Nat) (handlerOk storeOk : Bool) (msg : String)
  deriving DecidableEq, Repr

/-- Run one operation.  Firing a timer runs the registered callback
(`triggerReminder` on the captured reminder and task) unless the timer was
cancelled. -/
def runOp (s : ServiceState) : Op → ServiceState
  | .schedule t remindAt userId now hOk sOk msg =>
    (scheduleReminder s t remindAt userId now hOk sOk msg).1
  | .deliver rid ioOk => (markDelivered s rid ioOk).1
  | .initService now hOk sOk msg => ReminderService.init s now hOk sOk msg
  | .fireTimer tid hOk sOk msg =>
    match findTimer s.timers tid with
    | some rec => if rec.cancelled then s else triggerReminder s rec.reminder rec.task hOk sOk msg
    | none => s

/-- Run a sequence of operations from left to right. -/
def runOps (s : ServiceState) (ops : List Op) : ServiceState :=
  ops.foldl runOp s

/-- A `UserPreference` row (fields the scheduling subsystem reads).  The
TypeScript client exposes `reminderOffsetMinutes` and `digestScheduleCron`
as nullable. -/
structure UserPreference where
  userId : String
  digestScheduleCron : Option String := none
  reminderOffsetMinutes : Option Int := some 120
  deriving DecidableEq, Repr

/-- What a recurring `node-schedule` job created by
`ScheduledDigestService` is for: either the per-(chat, user) digest job or
the hourly reconciliation job registered by `init`. -/
inductive DigestJobKind where
  | digest (chatId : Int) (userId : Int)
  | reconciliation
  deriving DecidableEq, Repr

/-- One recurring job ever created by `ScheduledDigestService`. -/
structure DigestTimerRec where
  tid : Nat
  kind : DigestJobKind
  cron : String
  cancelled : Bool
  deriving DecidableEq, Repr

/-- Observable state of a `ScheduledDigestService` instance: the persisted
preferences, the in-memory `jobs` map keyed by the `chatId:userId` pair, the
history of recurring jobs created, delivered digest sends, and logs. -/
structure DigestState where
  prefs : List UserPreference
  jobs : List ((Int × Int) × Nat) := []
  timers : List DigestTimerRec := []
  sent : List (Int × Int) := []
  logs : List LogEntry := []
  botApiSet : Bool := false
  nextTid : Nat := 0
  deriving DecidableEq, Repr

/-- A fresh digest scheduler over given preferences. -/
def mkDigest (prefs : List UserPreference) : DigestState :=
  { prefs := prefs }

/-- `Map.get` for the digest `jobs` map. -/
def mapLookupD (m : List ((Int × Int) × Nat)) (k : Int × Int) : Option Nat :=
  (m.find? fun p => p.1 == k).map (·.2)

/-- `Map.delete` for the digest `jobs` map. -/
def mapEraseD (m : List ((Int × Int) × Nat)) (k : Int × Int) : List ((Int × Int) × Nat) :=
  m.filter fun p => p.1 != k

/-- `Map.set` for the digest `jobs` map. -/
def mapSetD (m : List ((Int × Int) × Nat)) (k : Int × Int) (v : Nat) :
    List ((Int × Int) × Nat) :=
  mapEraseD m k ++ [(k, v)]

/-- `job.cancel()` on a recurring digest job. -/
def cancelTidD (ts : List DigestTimerRec) (tid : Nat) : List DigestTimerRec :=
  ts.map fun t => if t.tid = tid then { t with cancelled := true } else t

/-- The non-cancelled recurring jobs created for a (chat, user) key. -/
def liveDigestFor (st : DigestState) (k : Int × Int) : List DigestTimerRec :=
  st.timers.filter fun t => t.kind == .digest k.1 k.2 && !t.cancelled

/-- One iteration of the `for` loop in `restoreScheduledDigests`: for a
truthy (non-null, non-empty) `digestScheduleCron` the code only logs a
placeholder debug line; it schedules nothing. -/
def digestRestoreStep (acc : DigestState) (u : UserPreference) : DigestState :=
  match u.digestScheduleCron with
  | some c =>
    if c == "" then acc
    else
      { acc with logs := acc.logs ++
          [⟨.debug,
            "Запланированный дайджест будет настроен для пользователя " ++ u.userId,
            [("userId", u.userId)]⟩] }
  | none => acc

/-- The JS truthiness test `if (user.digestScheduleCron)`: non-null and
non-empty. -/
def digestTruthy (u : UserPreference) : Bool :=
  match u.digestScheduleCron with
  | some c => !(c == "")
  | none => false

/-- The debug entry `restoreScheduledDigests` logs for one preference. -/
def digestDebugEntry (u : UserPreference) : LogEntry :=
  ⟨.debug, "Запланированный дайджест будет настроен для пользователя " ++ u.userId,
    [("userId", u.userId)]⟩

/-- `ScheduledDigestService.restoreScheduledDigests`: query the preferences
whose `digestScheduleCron` is not null and, for each truthy cron string,
only log a placeholder debug line (the code explicitly defers real
scheduling).  A store failure is caught and logged as a warning
(`storeOk = false`). -/
def restoreScheduledDigests (st : DigestState) (storeOk : Bool) : DigestState :=
  if storeOk then
    (st.prefs.filter fun p => p.digestScheduleCron.isSome).foldl digestRestoreStep st
  else
    { st with logs := st.logs ++
        [⟨.warn, "Не удалось восстановить запланированные дайджесты, продолжаем без них",
          [("location", "restoreScheduledDigests")]⟩] }

/-- `ScheduledDigestService.init`: remember the bot api, run the
reconciliation once, and register the hourly (`"0 * * * *"`) recurring
reconciliation job.  Its handle is not put in the `jobs` map. -/
def DigestService.init (st : DigestState) (storeOk : Bool) : DigestState :=
  { restoreScheduledDigests { st with botApiSet := true } storeOk with
    timers := (restoreScheduledDigests { st with botApiSet := true } storeOk).timers ++
      [⟨(restoreScheduledDigests { st with botApiSet := true } storeOk).nextTid,
        .reconciliation, "0 * * * *", false⟩],
    nextTid := (restoreScheduledDigests { st with botApiSet := true } storeOk).nextTid + 1 }

/-- The first block of `ScheduledDigestService.scheduleDigest`: cancel the
existing recurring job under the `chatId:userId` key if any (the map entry
is only rewritten when a new job is stored). -/
def cancelExistingD (st : DigestState) (k : Int × Int) : DigestState :=
  match mapLookupD st.jobs k with
  | some tid => { st with timers := cancelTidD st.timers tid }
  | none => st

/-- `ScheduledDigestService.scheduleDigest` (ids already normalized, the
early-return path for unparsable ids aside): cancel the existing job for
the `chatId:userId` key if any, then register a recurring job with the given
cron expression.  `cronOk` is whether `schedule.scheduleJob` accepted the
expression (it returns null on an invalid one, and then nothing is stored). -/
def scheduleDigest (st : DigestState) (chatId userId : Int) (cron : String)
    (cronOk : Bool) : DigestState :=
  if cronOk then
    { cancelExistingD st (chatId, userId) with
      timers := (cancelExistingD st (chatId, userId)).timers ++
        [⟨(cancelExistingD st (chatId, userId)).nextTid, .digest chatId userId, cron, false⟩],
      jobs := mapSetD (cancelExistingD st (chatId, userId)).jobs (chatId, userId)
        (cancelExistingD st (chatId, userId)).nextTid,
      nextTid := (cancelExistingD st (chatId, userId)).nextTid + 1 }
  else cancelExistingD st (chatId, userId)

/-- `ScheduledDigestService.cancelDigest`: cancel and remove the job for the
key if present; otherwise do nothing. -/
def cancelDigest (st : DigestState) (chatId userId : Int) : DigestState :=
  match mapLookupD st.jobs (chatId, userId) with
  | some tid =>
    { st with timers := cancelTidD st.timers tid,
              jobs := mapEraseD st.jobs (chatId, userId) }
  | none => st

/-- The timer engine fires one recurring digest timer: a reconciliation
timer re-runs `restoreScheduledDigests`; a digest timer generates and sends
the digest, catching and logging any per-tick error (`tickOk = false`), so
a failed tick never cancels the job. -/
def fireDigestTimer (st : DigestState) (tid : Nat) (tickOk storeOk : Bool) : DigestState :=
  match st.timers.find? (fun t => t.tid == tid) with
  | some rec =>
    if rec.cancelled then st
    else
      match rec.kind with
      | .reconciliation => restoreScheduledDigests st storeOk
      | .digest c u =>
        if tickOk then { st with sent := st.sent ++ [(c, u)] }
        else
          { st with logs := st.logs ++
              [⟨.error, "Ошибка отправки запланированного дайджеста",
                [("location", "scheduleDigest")]⟩] }
  | none => st

/-- Well-formedness of a digest-scheduler state: timer identities are fresh
and distinct and every live per-(chat, user) recurring job is reachable
through the `jobs` map. -/
structure WFD (st : DigestState) : Prop where
  tids_lt : ∀ t ∈ st.timers, t.tid < st.nextTid
  tids_nodup : (st.timers.map (·.tid)).Nodup
  live_mapped : ∀ t ∈ st.timers, ∀ c u, t.kind = .digest c u → t.cancelled = false →
    mapLookupD st.jobs (c, u) = some t.tid

/-- `DEFAULT_REMINDER_OFFSET_MINUTES` from `src/services/taskService.ts`. -/
def DEFAULT_REMINDER_OFFSET_MINUTES : Int := 120

/-- `PreferenceService.getOrCreate`: return the row keyed by the stringified
user id, or create one with the defaults (timezone and
`reminderOffsetMinutes: 120`). -/
def getOrCreate (prefs : List UserPreference) (uid : Int) : UserPreference :=
  match prefs.find? (fun p => p.userId == toString uid) with
  | some p => p
  | none => { userId := toString uid, reminderOffsetMinutes := some 120 }

/-- `saved.assigneeId ?? toInt(message.sender?.user_id)`: the reminder
recipient is the assignee, falling back to the message sender. -/
def resolvedUserId (saved : Task) (senderId : Option Int) : Option Int :=
  saved.assigneeId.or senderId

/-- The reminder offset: the (possibly just created) preference row's
`reminderOffsetMinutes`, falling back to the 120-minute default. -/
def resolvedOffset (prefs : List UserPreference) (userId : Option Int) : Int :=
  match userId with
  | some uid =>
    (getOrCreate prefs uid).reminderOffsetMinutes.getD DEFAULT_REMINDER_OFFSET_MINUTES
  | none => DEFAULT_REMINDER_OFFSET_MINUTES

/-- The reminder-creation tail of `TaskService.createOrUpdateTask`, applied
to the saved task: when the task has a due date, compute
`remindAt = dueDate - offset` minutes for the resolved recipient.  The
reminder is only scheduled when `remindAt` is strictly in the future; the
function returns the planned `(remindAt, userId)` pair, or none when
nothing is scheduled. -/
def reminderPlan (saved : Task) (senderId : Option Int)
    (prefs : List UserPreference) (now : Int) : Option (Int × Option Int) :=
  match saved.dueDate with
  | none => none
  | some due =>
    if now < due - resolvedOffset prefs (resolvedUserId saved senderId) * 60000 then
      some (due - resolvedOffset prefs (resolvedUserId saved senderId) * 60000,
        resolvedUserId saved senderId)
    else none

/-- The same tail running against the reminder scheduler: call
`scheduleReminder` exactly when `reminderPlan` produces a plan. -/
def taskFlowSchedule (s : ServiceState) (saved : Task) (senderId : Option Int)
    (prefs : List UserPreference) (now : Int) (handlerOk storeOk : Bool)
    (msg : String) : ServiceState :=
  match reminderPlan saved senderId prefs now with
  | some plan => (scheduleReminder s saved plan.1 plan.2 now handlerOk storeOk msg).1
  | none => s

/-- `t` is a live (non-cancelled) timer for reminder identifier `rid`. -/
def IsLive (s : ServiceState) (rid : String) (t : TimerRec) : Prop :=
  t ∈ s.timers ∧ t.reminder.id = rid ∧ t.cancelled = false

/-- Well-formedness of a `ReminderService` state: timer identities are fresh
and distinct, the `jobs` map points only at timers that exist and carry the
map key's reminder, and every live timer is reachable through the map. -/
structure WF (s : ServiceState) : Prop where
  tids_lt : ∀ t ∈ s.timers, t.tid < s.nextTid
  tids_nodup : (s.timers.map (·.tid)).Nodup
  jobs_tid : ∀ k tid, mapLookup s.jobs k = some tid →
    ∃ t ∈ s.timers, t.tid = tid ∧ t.reminder.id = k
  live_mapped : ∀ t ∈ s.timers, t.cancelled = false →
    mapLookup s.jobs t.reminder.id = some t.tid

/-- The store after `prisma.reminder.update` set the flag on `rid`. -/
def setDelivered (store : List Reminder) (rid : String) : List Reminder :=
  store.map fun rm => if rm.id == rid then { rm with delivered := true } else rm

/-! ### Association-list map lemmas -/

theorem mapLookup_cons (p : String × Nat) (m : List (String × Nat)) (k : String) :
    mapLookup (p :: m) k = if p.1 = k then some p.2 else mapLookup m k := by
  by_cases h : p.1 = k
  · rw [if_pos h]
    unfold mapLookup
    rw [List.find?_cons_of_pos _ (by simp [h])]
    rfl
  · rw [if_neg h]
    unfold mapLookup
    rw [List.find?_cons_of_neg _ (by simp [h])]

theorem mapErase_cons (p : String × Nat) (m : List (String × Nat)) (k : String) :
    mapErase (p :: m) k = if p.1 = k then mapErase m k else p :: mapErase m k := by
  by_cases h : p.1 = k
  · rw [if_pos h]
    unfold mapErase
    rw [List.filter_cons_of_neg (by simp [h])]
  · rw [if_neg h]
    unfold mapErase
    rw [List.filter_cons_of_pos (by simp [h])]

theorem mapLookup_mapErase_self (m : List (String × Nat)) (k : String) :
    mapLookup (mapErase m k) k = none := by
  induction m with
  | nil => rfl
  | cons p m ih =>
    rw [mapErase_cons]
    by_cases h : p.1 = k
    · rw [if_pos h]; exact ih
    · rw [if_neg h, mapLookup_cons, if_neg h]; exact ih

theorem mapLookup_mapErase_ne (m : List (String × Nat)) {k k' : String} (h : k' ≠ k) :
    mapLookup (mapErase m k) k' = mapLookup m k' := by
  induction m with
  | nil => rfl
  | cons p m ih =>
    rw [mapErase_cons, mapLookup_cons]
    by_cases h1 : p.1 = k
    · rw [if_pos h1, if_neg (h1 ▸ fun hh => h hh.symm)]
      exact ih
    · rw [if_neg h1, mapLookup_cons]
      by_cases h2 : p.1 = k'
      · rw [if_pos h2, if_pos h2]
      · rw [if_neg h2, if_neg h2]; exact ih

theorem mapLookup_mapSet_self (m : List (String × Nat)) (k : String) (v : Nat) :
    mapLookup (mapSet m k v) k = some v := by
  have h : mapLookup (mapErase m k) k = none := mapLookup_mapErase_self m k
  have h' : List.find? (fun p => p.1 == k) (mapErase m k) = none := by
    unfold mapLookup at h
    exact Option.map_eq_none'.1 h
  unfold mapSet mapLookup
  rw [List.find?_append, h', Option.none_or]
  rw [List.find?_cons_of_pos _ (by simp)]
  rfl

theorem mapLookup_mapSet_ne (m : List (String × Nat)) {k k' : String} (v : Nat)
    (h : k' ≠ k) : mapLookup (mapSet m k v) k' = mapLookup m k' := by
  have h2 : List.find? (fun p => p.1 == k') [(k, v)] = none := by
    rw [List.find?_cons_of_neg _ (by simp; exact fun hh => h hh.symm)]
    rfl
  unfold mapSet mapLookup
  rw [List.find?_append, h2, Option.or_none]
  exact congrArg _ (congrArg (List.find? _) rfl) |>.trans
    (by simpa [mapLookup] using mapLookup_mapErase_ne m h)

/-! ### Timer-history lemmas -/

theorem cancelTid_cons (t : TimerRec) (ts : List TimerRec) (tid : Nat) :
    cancelTid (t :: ts) tid =
      (if t.tid = tid then { t with cancelled := true } else t) :: cancelTid ts tid := by
  rfl

theorem cancelTid_map_tid (ts : List TimerRec) (tid : Nat) :
    (cancelTid ts tid).map (·.tid) = ts.map (·.tid) := by
  induction ts with
  | nil => rfl
  | cons t ts ih =>
    rw [cancelTid_cons, List.map_cons, List.map_cons, ih]
    by_cases h : t.tid = tid
    · rw [if_pos h]
    · rw [if_neg h]

theorem length_cancelTid (ts : List TimerRec) (tid : Nat) :
    (cancelTid ts tid).length = ts.length := by
  simp [cancelTid]

theorem findTimer_cons (u : TimerRec) (ts : List TimerRec) (tid : Nat) :
    findTimer (u :: ts) tid = if u.tid = tid then some u else findTimer ts tid := by
  by_cases h : u.tid = tid
  · rw [if_pos h]
    unfold findTimer
    rw [List.find?_cons_of_pos _ (by simp [h])]
  · rw [if_neg h]
    unfold findTimer
    rw [List.find?_cons_of_neg _ (by simp [h])]

theorem findTimer_cancelTid_ne (ts : List TimerRec) {tid tid' : Nat} (h : tid' ≠ tid) :
    findTimer (cancelTid ts tid) tid' = findTimer ts tid' := by
  induction ts with
  | nil => rfl
  | cons t ts ih =>
    rw [cancelTid_cons, findTimer_cons, findTimer_cons]
    by_cases h1 : t.tid = tid
    · rw [if_pos h1]
      have h2 : t.tid ≠ tid' := h1 ▸ fun hh => h hh.symm
      rw [if_neg (by simpa using h2), if_neg h2]
      exact ih
    · rw [if_neg h1]
      by_cases h2 : t.tid = tid'
      · rw [if_pos h2, if_pos h2]
      · rw [if_neg h2, if_neg h2]
        exact ih

theorem findTimer_nodup_self {ts : List TimerRec} (hn : (ts.map (·.tid)).Nodup)
    {t : TimerRec} (ht : t ∈ ts) : findTimer ts t.tid = some t := by
  induction ts with
  | nil => cases ht
  | cons u ts ih =>
    rcases List.mem_cons.1 ht with h | h
    · subst h
      rw [findTimer_cons, if_pos rfl]
    · have hu : u.tid ≠ t.tid := by
        intro he
        have : u.tid ∈ ts.map (·.tid) := he ▸ List.mem_map_of_mem _ h
        exact (List.nodup_cons.1 hn).1 this
      have hn' : (ts.map (·.tid)).Nodup := (List.nodup_cons.1 hn).2
      rw [findTimer_cons, if_neg hu]
      exact ih hn' h

theorem length_le_one_of_nodup_map_const {α β : Type _} {l : List α} (f : α → β)
    (hn : (l.map f).Nodup) (he : ∀ a ∈ l, ∀ b ∈ l, f a = f b) : l.length ≤ 1 := by
  match l with
  | [] => simp
  | [a] => simp
  | a :: b :: tl =>
    exfalso
    have hab : f a = f b := he a (by simp) b (by simp)
    have : f a ∉ (b :: tl).map f := (List.nodup_cons.1 hn).1
    exact this (by simp [hab])

/-! ### The in-memory-map well-formedness invariant -/

/-- Two states with the same `jobs`, `timers` and `nextTid` share
well-formedness. -/
theorem WF.congr {s s' : ServiceState} (h : WF s) (hj : s'.jobs = s.jobs)
    (ht : s'.timers = s.timers) (hn : s'.nextTid = s.nextTid) : WF s' := by
  refine ⟨?_, ?_, ?_, ?_⟩
  · rw [ht, hn]; exact h.tids_lt
  · rw [ht]; exact h.tids_nodup
  · rw [hj, ht]; exact h.jobs_tid
  · rw [hj, ht]; exact h.live_mapped

theorem WF_mkService (store : List Reminder) (tasks : List Task) :
    WF (mkService store tasks) := by
  refine ⟨?_, ?_, ?_, ?_⟩ <;> simp [mkService, mapLookup]

/-- Under well-formedness, `liveTimer` answers exactly the `IsLive`
predicate. -/
theorem liveTimer_some_iff {s : ServiceState} (hW : WF s) {rid : String}
    {t : TimerRec} : liveTimer s rid = some t ↔ IsLive s rid t := by
  constructor
  · intro h
    rw [liveTimer] at h
    cases hl : mapLookup s.jobs rid with
    | none => rw [hl] at h; simp at h
    | some tid =>
      rw [hl, Option.some_bind] at h
      cases hf : findTimer s.timers tid with
      | none => rw [hf] at h; simp at h
      | some u =>
        rw [hf, Option.some_bind] at h
        by_cases hc : u.cancelled
        · simp [hc] at h
        · simp only [if_neg hc] at h
          rw [Option.some_inj] at h
          have hm : u ∈ s.timers := List.mem_of_find?_eq_some hf
          have htid : u.tid = tid := by simpa using List.find?_some hf
          obtain ⟨u', hu', hu't, hu'id⟩ := hW.jobs_tid rid tid hl
          have huu : u = u' := by
            apply List.inj_on_of_nodup_map hW.tids_nodup hm hu'
            simp [htid, hu't]
          subst h
          exact ⟨hm, by rw [huu, hu'id], by simpa using hc⟩
  · rintro ⟨hm, hid, hc⟩
    have hl : mapLookup s.jobs rid = some t.tid := hid ▸ hW.live_mapped t hm hc
    have hf : findTimer s.timers t.tid = some t := findTimer_nodup_self hW.tids_nodup hm
    rw [liveTimer, hl, Option.some_bind, hf, Option.some_bind, hc]
    rfl

theorem liveTimer_none_iff {s : ServiceState} (hW : WF s) {rid : String} :
    liveTimer s rid = none ↔ ∀ t, ¬ IsLive s rid t := by
  constructor
  · intro h t hl
    rw [← liveTimer_some_iff hW] at hl
    rw [h] at hl
    cases hl
  · intro h
    cases hl : liveTimer s rid with
    | none => rfl
    | some t => exact absurd ((liveTimer_some_iff hW).1 hl) (h t)

/-- Under well-formedness there is at most one live timer per reminder
identifier. -/
theorem liveTimersFor_length_le_one {s : ServiceState} (hW : WF s) (rid : String) :
    (liveTimersFor s rid).length ≤ 1 := by
  apply length_le_one_of_nodup_map_const (·.tid)
  · exact List.Nodup.sublist (List.Sublist.map _ (List.filter_sublist _)) hW.tids_nodup
  · intro a ha b hb
    rw [liveTimersFor, List.mem_filter] at ha hb
    have hla : IsLive s rid a := by
      obtain ⟨h1, h2⟩ := ha
      simp only [Bool.and_eq_true, beq_iff_eq, Bool.not_eq_true'] at h2
      exact ⟨h1, h2.1, h2.2⟩
    have hlb : IsLive s rid b := by
      obtain ⟨h1, h2⟩ := hb
      simp only [Bool.and_eq_true, beq_iff_eq, Bool.not_eq_true'] at h2
      exact ⟨h1, h2.1, h2.2⟩
    have hab : (some a : Option TimerRec) = some b :=
      ((liveTimer_some_iff hW).2 hla).symm.trans ((liveTimer_some_iff hW).2 hlb)
    rw [Option.some_inj] at hab
    rw [hab]

/-! ### Branch equations for the service operations -/

theorem cancelTid_mem_live {ts : List TimerRec} {tid : Nat} {t' : TimerRec}
    (h : t' ∈ cancelTid ts tid) (hc : t'.cancelled = false) :
    t' ∈ ts ∧ t'.tid ≠ tid := by
  obtain ⟨t, ht, he⟩ := List.mem_map.1 h
  by_cases h1 : t.tid = tid
  · rw [if_pos h1] at he
    rw [← he] at hc
    simp at hc
  · rw [if_neg h1] at he
    subst he
    exact ⟨ht, h1⟩

theorem cancelTid_mem_of_ne {ts : List TimerRec} {tid : Nat} {t : TimerRec}
    (ht : t ∈ ts) (h1 : t.tid ≠ tid) : t ∈ cancelTid ts tid := by
  refine List.mem_map.2 ⟨t, ht, ?_⟩
  rw [if_neg h1]

theorem cancelTid_mem_elim {ts : List TimerRec} {tid : Nat} {t' : TimerRec}
    (h : t' ∈ cancelTid ts tid) :
    ∃ t ∈ ts, t'.tid = t.tid ∧ t'.reminder = t.reminder ∧ t'.task = t.task ∧
      t'.runAt = t.runAt := by
  obtain ⟨t, ht, he⟩ := List.mem_map.1 h
  by_cases h1 : t.tid = tid
  · rw [if_pos h1] at he
    exact ⟨t, ht, by rw [← he], by rw [← he], by rw [← he], by rw [← he]⟩
  · rw [if_neg h1] at he
    subst he
    exact ⟨t, ht, rfl, rfl, rfl, rfl⟩

theorem cancelTid_witness {ts : List TimerRec} {tid₀ : Nat} {t : TimerRec} (ht : t ∈ ts) :
    ∃ t' ∈ cancelTid ts tid₀, t'.tid = t.tid ∧ t'.reminder = t.reminder ∧
      t'.task = t.task ∧ t'.runAt = t.runAt := by
  by_cases h : t.tid = tid₀
  · exact ⟨{ t with cancelled := true },
      List.mem_map.2 ⟨t, ht, by rw [if_pos h]⟩, rfl, rfl, rfl, rfl⟩
  · exact ⟨t, cancelTid_mem_of_ne ht h, rfl, rfl, rfl, rfl⟩

theorem storeMarkDelivered_ioErr (store : List Reminder) (rid : String) :
    storeMarkDelivered store rid false = .error .ioFailure := rfl

theorem storeMarkDelivered_ok {store : List Reminder} {rid : String}
    (h : store.any (fun r => r.id == rid) = true) :
    storeMarkDelivered store rid true =
      .ok (store.map fun r => if r.id == rid then { r with delivered := true } else r) := by
  unfold storeMarkDelivered
  rw [Bool.not_true, if_neg (by simp), if_pos h]

theorem storeMarkDelivered_notFound {store : List Reminder} {rid : String}
    (h : store.any (fun r => r.id == rid) = false) :
    storeMarkDelivered store rid true = .error .recordNotFound := by
  unfold storeMarkDelivered
  rw [Bool.not_true, if_neg (by simp), if_neg (by simp [h])]

theorem markDelivered_of_error {s : ServiceState} {rid : String} {ok : Bool} {e : StoreError}
    (h : storeMarkDelivered s.store rid ok = .error e) :
    markDelivered s rid ok = (s, some e) := by
  unfold markDelivered
  rw [h]

theorem markDelivered_of_ok_none {s : ServiceState} {rid : String} {ok : Bool}
    {store' : List Reminder} (h : storeMarkDelivered s.store rid ok = .ok store')
    (hj : mapLookup s.jobs rid = none) :
    markDelivered s rid ok = ({ s with store := store' }, none) := by
  unfold markDelivered
  rw [h]
  simp only [hj]

theorem markDelivered_of_ok_some {s : ServiceState} {rid : String} {ok : Bool}
    {store' : List Reminder} {tid₀ : Nat} (h : storeMarkDelivered s.store rid ok = .ok store')
    (hj : mapLookup s.jobs rid = some tid₀) :
    markDelivered s rid ok =
      ({ s with store := store', timers := cancelTid s.timers tid₀,
                jobs := mapErase s.jobs rid }, none) := by
  unfold markDelivered
  rw [h]
  simp only [hj]

theorem cancelExisting_of_none {s : ServiceState} {rid : String}
    (h : mapLookup s.jobs rid = none) : cancelExisting s rid = s := by
  unfold cancelExisting
  rw [h]

theorem cancelExisting_of_some {s : ServiceState} {rid : String} {tid₀ : Nat}
    (h : mapLookup s.jobs rid = some tid₀) :
    cancelExisting s rid = { s with timers := cancelTid s.timers tid₀ } := by
  unfold cancelExisting
  rw [h]

theorem triggerReminder_of_noHandler {s : ServiceState} (r : Reminder) (t : Task)
    (hOk sOk : Bool) (msg : String) (h : s.handlerSet = false) :
    triggerReminder s r t hOk sOk msg =
      { s with logs := s.logs ++ [⟨.error, "Reminder handler is not configured", []⟩] } := by
  unfold triggerReminder
  rw [h]
  rfl

theorem triggerReminder_of_handlerErr {s : ServiceState} (r : Reminder) (t : Task)
    (sOk : Bool) (msg : String) (h : s.handlerSet = true) :
    triggerReminder s r t false sOk msg =
      { s with fired := s.fired ++ [(r.id, t.id)],
               logs := s.logs ++
                 [⟨.error, "Ошибка обработки напоминания",
                   [("error", msg), ("location", "processReminder")]⟩] } := by
  unfold triggerReminder
  rw [h]
  rfl

theorem scheduleJob_of_immediate {s : ServiceState} {r : Reminder} {t : Task} {now : Int}
    (hOk sOk : Bool) (msg : String) (h : r.remindAt ≤ now + JOB_OFFSET_MS) :
    scheduleJob s r t now hOk sOk msg =
      triggerReminder (cancelExisting s r.id) r t hOk sOk msg := by
  unfold scheduleJob
  rw [if_pos h]

theorem scheduleJob_of_future {s : ServiceState} {r : Reminder} {t : Task} {now : Int}
    (hOk sOk : Bool) (msg : String) (h : ¬ (r.remindAt ≤ now + JOB_OFFSET_MS)) :
    scheduleJob s r t now hOk sOk msg =
      { cancelExisting s r.id with
        timers := (cancelExisting s r.id).timers ++
          [⟨(cancelExisting s r.id).nextTid, r.remindAt, r, t, false⟩],
        jobs := mapSet (cancelExisting s r.id).jobs r.id (cancelExisting s r.id).nextTid,
        nextTid := (cancelExisting s r.id).nextTid + 1 } := by
  unfold scheduleJob
  rw [if_neg h]

/-! ### Component-preservation lemmas -/

theorem markDelivered_handlerSet (s : ServiceState) (rid : String) (ok : Bool) :
    (markDelivered s rid ok).1.handlerSet = s.handlerSet := by
  unfold markDelivered
  split
  · rfl
  · split <;> rfl

theorem markDelivered_fired (s : ServiceState) (rid : String) (ok : Bool) :
    (markDelivered s rid ok).1.fired = s.fired := by
  unfold markDelivered
  split
  · rfl
  · split <;> rfl

theorem markDelivered_logs (s : ServiceState) (rid : String) (ok : Bool) :
    (markDelivered s rid ok).1.logs = s.logs := by
  unfold markDelivered
  split
  · rfl
  · split <;> rfl

theorem markDelivered_tasks (s : ServiceState) (rid : String) (ok : Bool) :
    (markDelivered s rid ok).1.tasks = s.tasks := by
  unfold markDelivered
  split
  · rfl
  · split <;> rfl

theorem markDelivered_nextTid (s : ServiceState) (rid : String) (ok : Bool) :
    (markDelivered s rid ok).1.nextTid = s.nextTid := by
  unfold markDelivered
  split
  · rfl
  · split <;> rfl

theorem markDelivered_nextRid (s : ServiceState) (rid : String) (ok : Bool) :
    (markDelivered s rid ok).1.nextRid = s.nextRid := by
  unfold markDelivered
  split
  · rfl
  · split <;> rfl

theorem triggerReminder_handlerSet (s : ServiceState) (r : Reminder) (t : Task)
    (hOk sOk : Bool) (msg : String) :
    (triggerReminder s r t hOk sOk msg).handlerSet = s.handlerSet := by
  unfold triggerReminder
  split
  · rfl
  · split
    · rfl
    · split
      next s₂ heq =>
        have h2 := markDelivered_handlerSet { s with fired := s.fired ++ [(r.id, t.id)] } r.id sOk
        rw [heq] at h2
        exact h2
      next s₂ e heq =>
        have h2 := markDelivered_handlerSet { s with fired := s.fired ++ [(r.id, t.id)] } r.id sOk
        rw [heq] at h2
        exact h2

theorem triggerReminder_tasks (s : ServiceState) (r : Reminder) (t : Task)
    (hOk sOk : Bool) (msg : String) :
    (triggerReminder s r t hOk sOk msg).tasks = s.tasks := by
  unfold triggerReminder
  split
  · rfl
  · split
    · rfl
    · split
      next s₂ heq =>
        have h2 := markDelivered_tasks { s with fired := s.fired ++ [(r.id, t.id)] } r.id sOk
        rw [heq] at h2
        exact h2
      next s₂ e heq =>
        have h2 := markDelivered_tasks { s with fired := s.fired ++ [(r.id, t.id)] } r.id sOk
        rw [heq] at h2
        exact h2

theorem triggerReminder_nextTid (s : ServiceState) (r : Reminder) (t : Task)
    (hOk sOk : Bool) (msg : String) :
    (triggerReminder s r t hOk sOk msg).nextTid = s.nextTid := by
  unfold triggerReminder
  split
  · rfl
  · split
    · rfl
    · split
      next s₂ heq =>
        have h2 := markDelivered_nextTid { s with fired := s.fired ++ [(r.id, t.id)] } r.id sOk
        rw [heq] at h2
        exact h2
      next s₂ e heq =>
        have h2 := markDelivered_nextTid { s with fired := s.fired ++ [(r.id, t.id)] } r.id sOk
        rw [heq] at h2
        exact h2

theorem triggerReminder_fired_of_handler (s : ServiceState) (r : Reminder) (t : Task)
    (hOk sOk : Bool) (msg : String) (h : s.handlerSet = true) :
    (triggerReminder s r t hOk sOk msg).fired = s.fired ++ [(r.id, t.id)] := by
  unfold triggerReminder
  rw [h]
  rw [if_neg (by simp)]
  split
  · rfl
  · split
    next s₂ heq =>
      have h2 := markDelivered_fired { s with handlerSet := true, fired := s.fired ++ [(r.id, t.id)] } r.id sOk
      rw [heq] at h2
      exact h2
    next s₂ e heq =>
      have h2 := markDelivered_fired { s with handlerSet := true, fired := s.fired ++ [(r.id, t.id)] } r.id sOk
      rw [heq] at h2
      exact h2

theorem triggerReminder_fired_of_noHandler (s : ServiceState) (r : Reminder) (t : Task)
    (hOk sOk : Bool) (msg : String) (h : s.handlerSet = false) :
    (triggerReminder s r t hOk sOk msg).fired = s.fired := by
  rw [triggerReminder_of_noHandler r t hOk sOk msg h]

/-! ### Well-formedness preservation -/

theorem cancelExisting_no_live {s : ServiceState} (hW : WF s) (rid : String) :
    ∀ u ∈ (cancelExisting s rid).timers, u.reminder.id = rid → u.cancelled = true := by
  intro u hu hid
  by_contra hcn
  rw [Bool.not_eq_true] at hcn
  cases hl : mapLookup s.jobs rid with
  | none =>
    rw [cancelExisting_of_none hl] at hu
    have hm := hW.live_mapped u hu hcn
    rw [hid, hl] at hm
    cases hm
  | some tid₀ =>
    rw [cancelExisting_of_some hl] at hu
    obtain ⟨hmem, hne⟩ := cancelTid_mem_live hu hcn
    have hm := hW.live_mapped u hmem hcn
    rw [hid, hl] at hm
    exact hne (Option.some_inj.1 hm.symm)

theorem WF_cancelExisting {s : ServiceState} (hW : WF s) (rid : String) :
    WF (cancelExisting s rid) := by
  unfold cancelExisting
  split
  · rename_i tid₀ hl
    constructor
    · intro u hu
      obtain ⟨u₀, hu₀, htid, _, _, _⟩ := cancelTid_mem_elim hu
      rw [htid]
      exact hW.tids_lt u₀ hu₀
    · rw [show (List.map (fun x => x.tid) (cancelTid s.timers tid₀)) =
          List.map (fun x => x.tid) s.timers from cancelTid_map_tid s.timers tid₀]
      exact hW.tids_nodup
    · intro k tid h
      obtain ⟨u, hu, h1, h2⟩ := hW.jobs_tid k tid h
      obtain ⟨u', hu', e1, e2, _, _⟩ := cancelTid_witness hu
      exact ⟨u', hu', by rw [e1, h1], by rw [e2]; exact h2⟩
    · intro u hu hc
      obtain ⟨hmem, _⟩ := cancelTid_mem_live hu hc
      exact hW.live_mapped u hmem hc
  · exact hW

theorem WF_markDelivered {s : ServiceState} (hW : WF s) (rid : String) (ok : Bool) :
    WF (markDelivered s rid ok).1 := by
  unfold markDelivered
  split
  · exact hW
  · split
    · rename_i tid₀ hl
      constructor
      · intro u hu
        obtain ⟨u₀, hu₀, htid, _, _, _⟩ := cancelTid_mem_elim hu
        rw [htid]
        exact hW.tids_lt u₀ hu₀
      · rw [show (List.map (fun x => x.tid) (cancelTid s.timers tid₀)) =
            List.map (fun x => x.tid) s.timers from cancelTid_map_tid s.timers tid₀]
        exact hW.tids_nodup
      · intro k tid h
        by_cases hk : k = rid
        · rw [hk] at h
          rw [show mapLookup (mapErase s.jobs rid) rid = none from
            mapLookup_mapErase_self s.jobs rid] at h
          cases h
        · rw [show mapLookup (mapErase s.jobs rid) k = mapLookup s.jobs k from
            mapLookup_mapErase_ne s.jobs hk] at h
          obtain ⟨u, hu, h1, h2⟩ := hW.jobs_tid k tid h
          obtain ⟨u', hu', e1, e2, _, _⟩ := cancelTid_witness hu
          exact ⟨u', hu', by rw [e1, h1], by rw [e2]; exact h2⟩
      · intro u hu hc
        obtain ⟨hmem, hne⟩ := cancelTid_mem_live hu hc
        have hm := hW.live_mapped u hmem hc
        have hid : u.reminder.id ≠ rid := by
          intro he
          rw [he] at hm
          exact hne (Option.some_inj.1 (hm.symm.trans hl))
        rw [show mapLookup (mapErase s.jobs rid) u.reminder.id =
            mapLookup s.jobs u.reminder.id from mapLookup_mapErase_ne s.jobs hid]
        exact hm
    · exact hW.congr rfl rfl rfl

theorem WF_triggerReminder {s : ServiceState} (hW : WF s) (r : Reminder) (t : Task)
    (hOk sOk : Bool) (msg : String) : WF (triggerReminder s r t hOk sOk msg) := by
  unfold triggerReminder
  split
  · exact hW.congr rfl rfl rfl
  · split
    · exact hW.congr rfl rfl rfl
    · have hW₁ : WF { s with fired := s.fired ++ [(r.id, t.id)] } := hW.congr rfl rfl rfl
      split
      · rename_i s₂ heq
        have h2 := WF_markDelivered hW₁ r.id sOk
        rw [heq] at h2
        exact h2
      · rename_i s₂ e heq
        have h2 := WF_markDelivered hW₁ r.id sOk
        rw [heq] at h2
        exact (h2 : WF s₂).congr rfl rfl rfl

theorem WF_scheduleJob {s : ServiceState} (hW : WF s) (r : Reminder) (t : Task)
    (now : Int) (hOk sOk : Bool) (msg : String) :
    WF (scheduleJob s r t now hOk sOk msg) := by
  unfold scheduleJob
  split
  · exact WF_triggerReminder (WF_cancelExisting hW r.id) r t hOk sOk msg
  · have hW₁ := WF_cancelExisting hW r.id
    have hno := cancelExisting_no_live hW r.id
    constructor
    · intro u hu
      rcases List.mem_append.1 hu with h | h
      · exact Nat.lt_succ_of_lt (hW₁.tids_lt u h)
      · rw [List.mem_singleton] at h
        subst h
        exact Nat.lt_succ_self _
    · rw [List.map_append, List.map_singleton, List.nodup_append]
      refine ⟨hW₁.tids_nodup, List.nodup_singleton _, ?_⟩
      intro a ha hb
      rw [List.mem_singleton] at hb
      subst hb
      obtain ⟨u, hu, he⟩ := List.mem_map.1 ha
      have := hW₁.tids_lt u hu
      rw [he] at this
      exact Nat.lt_irrefl _ this
    · intro k tid h
      by_cases hk : k = r.id
      · subst hk
        rw [mapLookup_mapSet_self] at h
        refine ⟨⟨(cancelExisting s r.id).nextTid, r.remindAt, r, t, false⟩,
          List.mem_append_right _ (List.mem_singleton.2 rfl), ?_, rfl⟩
        exact Option.some_inj.1 h
      · rw [mapLookup_mapSet_ne _ _ hk] at h
        obtain ⟨u, hu, h1, h2⟩ := hW₁.jobs_tid k tid h
        exact ⟨u, List.mem_append_left _ hu, h1, h2⟩
    · intro u hu hc
      rcases List.mem_append.1 hu with h | h
      · have hm := hW₁.live_mapped u h hc
        have hne : u.reminder.id ≠ r.id := by
          intro he
          have := hno u h he
          rw [this] at hc
          cases hc
        rw [mapLookup_mapSet_ne _ _ hne]
        exact hm
      · rw [List.mem_singleton] at h
        subst h
        exact mapLookup_mapSet_self _ _ _

theorem WF_processAll {s : ServiceState} (hW : WF s) (rows : List (Reminder × Task))
    (now : Int) (hOk sOk : Bool) (msg : String) :
    WF (processAll s rows now hOk sOk msg) := by
  induction rows generalizing s with
  | nil => exact hW
  | cons p rows ih => exact ih (WF_scheduleJob hW p.1 p.2 now hOk sOk msg)

theorem WF_restore {s : ServiceState} (hW : WF s) (now : Int) (hOk sOk : Bool)
    (msg : String) : WF (restorePendingReminders s now hOk sOk msg) :=
  WF_processAll hW _ now hOk sOk msg

theorem WF_init {s : ServiceState} (hW : WF s) (now : Int) (hOk sOk : Bool)
    (msg : String) : WF (ReminderService.init s now hOk sOk msg) := by
  unfold ReminderService.init
  exact WF_restore (@WF.congr s { s with handlerSet := true } hW rfl rfl rfl)
    now hOk sOk msg

theorem WF_runOp {s : ServiceState} (hW : WF s) (op : Op) : WF (runOp s op) := by
  cases op with
  | schedule t remindAt userId now hOk sOk msg =>
    show WF (scheduleJob
      { s with store := s.store ++ [newReminder s t remindAt userId],
               nextRid := s.nextRid + 1 }
      (newReminder s t remindAt userId) t now hOk sOk msg)
    exact WF_scheduleJob
      (@WF.congr s
        { s with store := s.store ++ [newReminder s t remindAt userId],
                 nextRid := s.nextRid + 1 } hW rfl rfl rfl)
      (newReminder s t remindAt userId) t now hOk sOk msg
  | deliver rid ioOk => exact WF_markDelivered hW rid ioOk
  | initService now hOk sOk msg => exact WF_init hW now hOk sOk msg
  | fireTimer tid hOk sOk msg =>
    show WF (match findTimer s.timers tid with
      | some rec => if rec.cancelled then s
          else triggerReminder s rec.reminder rec.task hOk sOk msg
      | none => s)
    split
    · split
      · exact hW
      · exact WF_triggerReminder hW _ _ hOk sOk msg
    · exact hW

theorem WF_runOps (s : ServiceState) (hW : WF s) (ops : List Op) :
    WF (runOps s ops) := by
  induction ops generalizing s with
  | nil => exact hW
  | cons op ops ih => exact ih _ (WF_runOp hW op)

/-! ### Component lemmas for `cancelExisting` and `scheduleJob` -/

theorem cancelExisting_jobs (s : ServiceState) (rid : String) :
    (cancelExisting s rid).jobs = s.jobs := by
  unfold cancelExisting
  split <;> rfl

theorem cancelExisting_handlerSet (s : ServiceState) (rid : String) :
    (cancelExisting s rid).handlerSet = s.handlerSet := by
  unfold cancelExisting
  split <;> rfl

theorem cancelExisting_fired (s : ServiceState) (rid : String) :
    (cancelExisting s rid).fired = s.fired := by
  unfold cancelExisting
  split <;> rfl

theorem cancelExisting_store (s : ServiceState) (rid : String) :
    (cancelExisting s rid).store = s.store := by
  unfold cancelExisting
  split <;> rfl

theorem cancelExisting_tasks (s : ServiceState) (rid : String) :
    (cancelExisting s rid).tasks = s.tasks := by
  unfold cancelExisting
  split <;> rfl

theorem cancelExisting_nextTid (s : ServiceState) (rid : String) :
    (cancelExisting s rid).nextTid = s.nextTid := by
  unfold cancelExisting
  split <;> rfl

theorem cancelExisting_logs (s : ServiceState) (rid : String) :
    (cancelExisting s rid).logs = s.logs := by
  unfold cancelExisting
  split <;> rfl

theorem scheduleJob_handlerSet (s : ServiceState) (r : Reminder) (t : Task) (now : Int)
    (hOk sOk : Bool) (msg : String) :
    (scheduleJob s r t now hOk sOk msg).handlerSet = s.handlerSet := by
  unfold scheduleJob
  split
  · rw [triggerReminder_handlerSet, cancelExisting_handlerSet]
  · exact cancelExisting_handlerSet s r.id

theorem scheduleJob_tasks (s : ServiceState) (r : Reminder) (t : Task) (now : Int)
    (hOk sOk : Bool) (msg : String) :
    (scheduleJob s r t now hOk sOk msg).tasks = s.tasks := by
  unfold scheduleJob
  split
  · rw [triggerReminder_tasks, cancelExisting_tasks]
  · exact cancelExisting_tasks s r.id

theorem scheduleJob_fired (s : ServiceState) (r : Reminder) (t : Task) (now : Int)
    (hOk sOk : Bool) (msg : String) (h : s.handlerSet = true) :
    (scheduleJob s r t now hOk sOk msg).fired =
      if r.remindAt ≤ now + JOB_OFFSET_MS then s.fired ++ [(r.id, t.id)] else s.fired := by
  unfold scheduleJob
  split
  · rename_i hc
    rw [triggerReminder_fired_of_handler _ r t hOk sOk msg
        (by rw [cancelExisting_handlerSet]; exact h),
      cancelExisting_fired]
  · rename_i hc
    exact cancelExisting_fired s r.id

theorem processAll_handlerSet (s : ServiceState) (rows : List (Reminder × Task))
    (now : Int) (hOk sOk : Bool) (msg : String) :
    (processAll s rows now hOk sOk msg).handlerSet = s.handlerSet := by
  induction rows generalizing s with
  | nil => rfl
  | cons p rows ih =>
    show (processAll (scheduleJob s p.1 p.2 now hOk sOk msg) rows now hOk sOk msg).handlerSet
      = s.handlerSet
    rw [ih, scheduleJob_handlerSet]

theorem processAll_fired (s : ServiceState) (rows : List (Reminder × Task))
    (now : Int) (hOk sOk : Bool) (msg : String) (h : s.handlerSet = true) :
    (processAll s rows now hOk sOk msg).fired =
      s.fired ++ (rows.filter fun p => decide (p.1.remindAt ≤ now + JOB_OFFSET_MS)).map
        (fun p => (p.1.id, p.2.id)) := by
  induction rows generalizing s with
  | nil => simp [processAll]
  | cons p rows ih =>
    show (processAll (scheduleJob s p.1 p.2 now hOk sOk msg) rows now hOk sOk msg).fired = _
    rw [ih _ (by rw [scheduleJob_handlerSet]; exact h),
      scheduleJob_fired _ _ _ _ _ _ _ h]
    by_cases hc : p.1.remindAt ≤ now + JOB_OFFSET_MS
    · rw [if_pos hc, List.filter_cons_of_pos (by simpa using hc), List.map_cons,
        List.append_assoc]
      rfl
    · rw [if_neg hc, List.filter_cons_of_neg (by simpa using hc)]

/-! ### Live-timer frame and self lemmas -/

theorem tid_ne_of_mapped_ne {s : ServiceState} (hW : WF s) {rid x : String} {tid₀ : Nat}
    (hl : mapLookup s.jobs rid = some tid₀) (hx : x ≠ rid) {u : TimerRec}
    (hm : u ∈ s.timers) (hid : u.reminder.id = x) : u.tid ≠ tid₀ := by
  intro he
  obtain ⟨w, hw, hwt, hwid⟩ := hW.jobs_tid rid tid₀ hl
  have huw : u = w := List.inj_on_of_nodup_map hW.tids_nodup hm hw (by rw [he, hwt])
  rw [huw] at hid
  rw [hid] at hwid
  exact hx hwid

theorem cancelExisting_IsLive_ne {s : ServiceState} (hW : WF s) {rid x : String}
    (hx : x ≠ rid) (u : TimerRec) :
    IsLive (cancelExisting s rid) x u ↔ IsLive s x u := by
  unfold cancelExisting
  split
  · rename_i tid₀ hl
    constructor
    · rintro ⟨hm, hid, hc⟩
      exact ⟨(cancelTid_mem_live hm hc).1, hid, hc⟩
    · rintro ⟨hm, hid, hc⟩
      exact ⟨cancelTid_mem_of_ne hm (tid_ne_of_mapped_ne hW hl hx hm hid), hid, hc⟩
  · exact Iff.rfl

theorem markDelivered_IsLive_ne {s : ServiceState} (hW : WF s) {rid x : String}
    (hx : x ≠ rid) (ok : Bool) (u : TimerRec) :
    IsLive (markDelivered s rid ok).1 x u ↔ IsLive s x u := by
  unfold markDelivered
  split
  · exact Iff.rfl
  · split
    · rename_i tid₀ hl
      constructor
      · rintro ⟨hm, hid, hc⟩
        exact ⟨(cancelTid_mem_live hm hc).1, hid, hc⟩
      · rintro ⟨hm, hid, hc⟩
        exact ⟨cancelTid_mem_of_ne hm (tid_ne_of_mapped_ne hW hl hx hm hid), hid, hc⟩
    · exact Iff.rfl

theorem markDelivered_IsLive_mono {s : ServiceState} {rid : String} {ok : Bool}
    {x : String} {u : TimerRec} (h : IsLive (markDelivered s rid ok).1 x u) :
    IsLive s x u := by
  unfold markDelivered at h
  split at h
  · exact h
  · split at h
    · obtain ⟨hm, hid, hc⟩ := h
      exact ⟨(cancelTid_mem_live hm hc).1, hid, hc⟩
    · exact h

theorem triggerReminder_IsLive_ne {s : ServiceState} (hW : WF s) (r : Reminder) (t : Task)
    {x : String} (hx : x ≠ r.id) (hOk sOk : Bool) (msg : String) (u : TimerRec) :
    IsLive (triggerReminder s r t hOk sOk msg) x u ↔ IsLive s x u := by
  unfold triggerReminder
  split
  · exact Iff.rfl
  · split
    · exact Iff.rfl
    · split
      · rename_i s₂ heq
        have h2 := markDelivered_IsLive_ne
          (@WF.congr s { s with fired := s.fired ++ [(r.id, t.id)] } hW rfl rfl rfl)
          hx sOk u
        rw [heq] at h2
        exact h2
      · rename_i s₂ e heq
        have h2 := markDelivered_IsLive_ne
          (@WF.congr s { s with fired := s.fired ++ [(r.id, t.id)] } hW rfl rfl rfl)
          hx sOk u
        rw [heq] at h2
        exact h2

theorem triggerReminder_IsLive_mono {s : ServiceState} (r : Reminder) (t : Task)
    (hOk sOk : Bool) (msg : String) {x : String} {u : TimerRec}
    (h : IsLive (triggerReminder s r t hOk sOk msg) x u) : IsLive s x u := by
  unfold triggerReminder at h
  split at h
  · exact h
  · split at h
    · exact h
    · split at h
      · rename_i s₂ heq
        have h2 : IsLive
            (markDelivered { s with fired := s.fired ++ [(r.id, t.id)] } r.id sOk).1 x u := by
          rw [heq]
          exact h
        exact @markDelivered_IsLive_mono
          { s with fired := s.fired ++ [(r.id, t.id)] } r.id sOk x u h2
      · rename_i s₂ e heq
        have h2 : IsLive
            (markDelivered { s with fired := s.fired ++ [(r.id, t.id)] } r.id sOk).1 x u := by
          rw [heq]
          exact h
        exact @markDelivered_IsLive_mono
          { s with fired := s.fired ++ [(r.id, t.id)] } r.id sOk x u h2

theorem scheduleJob_IsLive_ne {s : ServiceState} (hW : WF s) (r : Reminder) (t : Task)
    (now : Int) (hOk sOk : Bool) (msg : String) {x : String} (hx : x ≠ r.id)
    (u : TimerRec) :
    IsLive (scheduleJob s r t now hOk sOk msg) x u ↔ IsLive s x u := by
  unfold scheduleJob
  split
  · exact Iff.trans
      (triggerReminder_IsLive_ne (WF_cancelExisting hW r.id) r t hx hOk sOk msg u)
      (cancelExisting_IsLive_ne hW hx u)
  · constructor
    · rintro ⟨hm, hid, hc⟩
      rcases List.mem_append.1 hm with h | h
      · exact (cancelExisting_IsLive_ne hW hx u).1 ⟨h, hid, hc⟩
      · rw [List.mem_singleton] at h
        subst h
        exact absurd hid (fun he => hx (he.symm ▸ rfl))
    · rintro ⟨hm, hid, hc⟩
      obtain ⟨hm', hid', hc'⟩ := (cancelExisting_IsLive_ne hW hx u).2 ⟨hm, hid, hc⟩
      exact ⟨List.mem_append_left _ hm', hid', hc'⟩

theorem scheduleJob_IsLive_immediate {s : ServiceState} (hW : WF s) {r : Reminder}
    {t : Task} {now : Int} (hOk sOk : Bool) (msg : String)
    (him : r.remindAt ≤ now + JOB_OFFSET_MS) (u : TimerRec) :
    ¬ IsLive (scheduleJob s r t now hOk sOk msg) r.id u := by
  rw [scheduleJob_of_immediate hOk sOk msg him]
  intro h
  obtain ⟨hm, hid, hc⟩ := triggerReminder_IsLive_mono r t hOk sOk msg h
  rw [cancelExisting_no_live hW r.id u hm hid] at hc
  cases hc

theorem scheduleJob_IsLive_future {s : ServiceState} (hW : WF s) {r : Reminder}
    {t : Task} {now : Int} (hOk sOk : Bool) (msg : String)
    (hf : ¬ (r.remindAt ≤ now + JOB_OFFSET_MS)) (u : TimerRec) :
    IsLive (scheduleJob s r t now hOk sOk msg) r.id u ↔
      u = ⟨(cancelExisting s r.id).nextTid, r.remindAt, r, t, false⟩ := by
  rw [scheduleJob_of_future hOk sOk msg hf]
  constructor
  · rintro ⟨hm, hid, hc⟩
    rcases List.mem_append.1 hm with h | h
    · have := cancelExisting_no_live hW r.id u h hid
      rw [this] at hc
      cases hc
    · exact List.mem_singleton.1 h
  · rintro rfl
    exact ⟨List.mem_append_right _ (List.mem_singleton.2 rfl), rfl, rfl⟩

/-! ### Recovery-sweep characterization -/

theorem processAll_IsLive_ne {s : ServiceState} (hW : WF s) {x : String}
    {rows : List (Reminder × Task)} (now : Int) (hOk sOk : Bool) (msg : String)
    (hx : ∀ p ∈ rows, p.1.id ≠ x) (u : TimerRec) :
    IsLive (processAll s rows now hOk sOk msg) x u ↔ IsLive s x u := by
  induction rows generalizing s with
  | nil => exact Iff.rfl
  | cons p rows ih =>
    show IsLive (processAll (scheduleJob s p.1 p.2 now hOk sOk msg) rows now hOk sOk msg) x u
      ↔ IsLive s x u
    exact Iff.trans
      (ih (WF_scheduleJob hW p.1 p.2 now hOk sOk msg)
        (fun q hq => hx q (List.mem_cons_of_mem _ hq)))
      (scheduleJob_IsLive_ne hW p.1 p.2 now hOk sOk msg
        (fun he => hx p (List.mem_cons_self _ _) he.symm) u)

theorem processAll_IsLive_mem {s : ServiceState} (hW : WF s)
    {rows : List (Reminder × Task)} (now : Int) (hOk sOk : Bool) (msg : String)
    (hn : (rows.map fun p => p.1.id).Nodup) {r : Reminder} {t : Task}
    (hmem : (r, t) ∈ rows) :
    (r.remindAt ≤ now + JOB_OFFSET_MS →
      ∀ u, ¬ IsLive (processAll s rows now hOk sOk msg) r.id u) ∧
    (¬ (r.remindAt ≤ now + JOB_OFFSET_MS) →
      ∃ u, (∀ u', IsLive (processAll s rows now hOk sOk msg) r.id u' ↔ u' = u) ∧
        u.runAt = r.remindAt ∧ u.reminder = r ∧ u.task = t ∧ u.cancelled = false) := by
  induction rows generalizing s with
  | nil => cases hmem
  | cons p rows ih =>
    have hstep := WF_scheduleJob hW p.1 p.2 now hOk sOk msg
    rcases List.mem_cons.1 hmem with he | hm
    · obtain ⟨p1, p2⟩ := p
      injection he with he1 he2
      subst he1
      subst he2
      have hrest : ∀ q ∈ rows, q.1.id ≠ r.id := by
        intro q hq hqe
        have h1 := (List.nodup_cons.1 hn).1
        have h2 : q.1.id ∈ List.map (fun p => p.1.id) rows :=
          List.mem_map_of_mem (fun p => p.1.id) hq
        rw [hqe] at h2
        exact h1 h2
      constructor
      · intro him u h
        have h2 := (processAll_IsLive_ne hstep now hOk sOk msg hrest u).1 h
        exact scheduleJob_IsLive_immediate hW hOk sOk msg him u h2
      · intro hf
        refine ⟨⟨(cancelExisting s r.id).nextTid, r.remindAt, r, t, false⟩, ?_, rfl, rfl, rfl, rfl⟩
        intro u'
        exact Iff.trans
          (processAll_IsLive_ne hstep now hOk sOk msg hrest u')
          (scheduleJob_IsLive_future hW hOk sOk msg hf u')
    · exact ih hstep (List.nodup_cons.1 hn).2 hm

theorem map_fst_filterMap_sublist {α β : Type _} (h : α → Option β) (l : List α) :
    ((l.filterMap fun a => (h a).map fun b => (a, b)).map (fun p => p.1)).Sublist l := by
  induction l with
  | nil => exact List.Sublist.refl _
  | cons a l ih =>
    cases ha : h a with
    | none =>
      simp only [List.filterMap_cons, ha, Option.map_none']
      exact ih.cons a
    | some b =>
      simp only [List.filterMap_cons, ha, Option.map_some', List.map_cons]
      exact ih.cons₂ a

theorem pendingRows_fst_sublist (s : ServiceState) (now : Int) :
    ((pendingRows s now).map fun p => p.1).Sublist s.store := by
  unfold pendingRows
  exact (map_fst_filterMap_sublist _ _).trans (List.filter_sublist _)

theorem pendingRows_mem_iff {s : ServiceState} {now : Int} {r : Reminder} {t : Task} :
    (r, t) ∈ pendingRows s now ↔
      r ∈ s.store ∧ pendingFilter now r = true ∧
        (s.tasks.find? fun tk => tk.id == r.taskId) = some t := by
  unfold pendingRows
  rw [List.mem_filterMap]
  constructor
  · rintro ⟨a, ha, he⟩
    rw [Option.map_eq_some'] at he
    obtain ⟨tk, htk, hpair⟩ := he
    obtain ⟨ha1, ha2⟩ := List.mem_filter.1 ha
    cases hpair
    exact ⟨ha1, ha2, htk⟩
  · rintro ⟨h1, h2, h3⟩
    exact ⟨r, List.mem_filter.2 ⟨h1, h2⟩, by rw [h3]; rfl⟩

theorem pendingRows_ids_nodup {s : ServiceState} (now : Int)
    (hids : (s.store.map fun r => r.id).Nodup) :
    ((pendingRows s now).map fun p => p.1.id).Nodup := by
  have h1 : ((pendingRows s now).map fun p => p.1.id) =
      (((pendingRows s now).map fun p => p.1).map fun r => r.id) := by
    rw [List.map_map]
    rfl
  rw [h1]
  exact ((pendingRows_fst_sublist s now).map _).nodup hids

theorem pendingFilter_iff {now : Int} {r : Reminder} :
    pendingFilter now r = true ↔
      (r.delivered = false ∧ now - JOB_OFFSET_MS ≤ r.remindAt) := by
  unfold pendingFilter
  rw [Bool.and_eq_true, Bool.not_eq_true', decide_eq_true_eq]

theorem pendingRows_find_row {s : ServiceState} {now : Int} {r : Reminder}
    (htasks : ∀ rm ∈ s.store, ∃ tk ∈ s.tasks, tk.id = rm.taskId)
    (hr : r ∈ s.store) (hP : pendingFilter now r = true) :
    ∃ tk', (r, tk') ∈ pendingRows s now := by
  obtain ⟨tk, htk, htke⟩ := htasks r hr
  have hsome : (s.tasks.find? fun x => x.id == r.taskId).isSome := by
    rw [List.find?_isSome]
    exact ⟨tk, htk, by simp [htke]⟩
  obtain ⟨tk', hfind⟩ := Option.isSome_iff_exists.1 hsome
  exact ⟨tk', pendingRows_mem_iff.2 ⟨hr, hP, hfind⟩⟩

theorem pendingRows_not_id {s : ServiceState} {now : Int} {r : Reminder}
    (hids : (s.store.map fun rm => rm.id).Nodup) (hr : r ∈ s.store)
    (hP : pendingFilter now r = false) :
    ∀ q ∈ pendingRows s now, q.1.id ≠ r.id := by
  rintro ⟨q1, q2⟩ hq hqe
  obtain ⟨hst, hpf, _⟩ := pendingRows_mem_iff.1 hq
  have hqr : q1 = r := List.inj_on_of_nodup_map hids hst hr hqe
  rw [hqr, hP] at hpf
  cases hpf

theorem restore_characterization {s : ServiceState}
    (hW : WF s) (ht : s.timers = []) (hf : s.fired = []) (hh : s.handlerSet = true)
    (now : Int) (msg : String) (r : Reminder)
    (hids : (s.store.map fun rm => rm.id).Nodup)
    (htasks : ∀ rm ∈ s.store, ∃ tk ∈ s.tasks, tk.id = rm.taskId)
    (hr : r ∈ s.store) :
    ((∃ p ∈ (restorePendingReminders s now true true msg).fired, p.1 = r.id) ↔
      (r.delivered = false ∧ now - JOB_OFFSET_MS ≤ r.remindAt ∧
        r.remindAt ≤ now + JOB_OFFSET_MS)) ∧
    ((∃ u, liveTimer (restorePendingReminders s now true true msg) r.id = some u) ↔
      (r.delivered = false ∧ now - JOB_OFFSET_MS ≤ r.remindAt ∧
        now + JOB_OFFSET_MS < r.remindAt)) ∧
    (∀ u, liveTimer (restorePendingReminders s now true true msg) r.id = some u →
      u.runAt = r.remindAt ∧ u.reminder = r) := by
  have hrowsn : ((pendingRows s now).map fun p => p.1.id).Nodup :=
    pendingRows_ids_nodup now hids
  have hW' : WF (processAll s (pendingRows s now) now true true msg) :=
    WF_processAll hW _ now true true msg
  have hinj := List.inj_on_of_nodup_map hids
  have hmain : ∀ u, IsLive (processAll s (pendingRows s now) now true true msg) r.id u →
      (pendingFilter now r = true ∧ ¬ (r.remindAt ≤ now + JOB_OFFSET_MS) ∧
        u.runAt = r.remindAt ∧ u.reminder = r) := by
    intro u hIs
    by_cases hP : pendingFilter now r = true
    · obtain ⟨tk', hrow⟩ := pendingRows_find_row htasks hr hP
      by_cases him : r.remindAt ≤ now + JOB_OFFSET_MS
      · exact absurd hIs
          ((processAll_IsLive_mem hW now true true msg hrowsn hrow).1 him u)
      · obtain ⟨u₀, hiff, hrun, hrem, _, _⟩ :=
          (processAll_IsLive_mem hW now true true msg hrowsn hrow).2 him
        have := (hiff u).1 hIs
        subst this
        exact ⟨hP, him, hrun, hrem⟩
    · have hx := pendingRows_not_id hids hr (Bool.not_eq_true _ ▸ hP)
      have h2 := (processAll_IsLive_ne hW now true true msg hx u).1 hIs
      rw [IsLive, ht] at h2
      cases h2.1
  refine ⟨?_, ?_, ?_⟩
  · show (∃ p ∈ (processAll s (pendingRows s now) now true true msg).fired, p.1 = r.id) ↔ _
    rw [processAll_fired s _ now true true msg hh, hf, List.nil_append]
    constructor
    · rintro ⟨p, hp, hpe⟩
      obtain ⟨⟨q1, q2⟩, hq, he⟩ := List.mem_map.1 hp
      obtain ⟨hq1, hq2⟩ := List.mem_filter.1 hq
      obtain ⟨hst, hpf, _⟩ := pendingRows_mem_iff.1 hq1
      have hq1r : q1 = r := by
        refine hinj hst hr ?_
        rw [← he] at hpe
        exact hpe
      rw [hq1r] at hpf hq2
      obtain ⟨hd, hlow⟩ := pendingFilter_iff.1 hpf
      exact ⟨hd, hlow, by simpa using hq2⟩
    · rintro ⟨hd, hlow, hup⟩
      obtain ⟨tk', hrow⟩ := pendingRows_find_row htasks hr (pendingFilter_iff.2 ⟨hd, hlow⟩)
      refine ⟨(r.id, tk'.id), ?_, rfl⟩
      exact List.mem_map.2 ⟨(r, tk'), List.mem_filter.2 ⟨hrow, by simpa using hup⟩, rfl⟩
  · constructor
    · rintro ⟨u, hu⟩
      obtain ⟨hP, hfut, _, _⟩ := hmain u ((liveTimer_some_iff hW').1 hu)
      obtain ⟨hd, hlow⟩ := pendingFilter_iff.1 hP
      exact ⟨hd, hlow, lt_of_not_le hfut⟩
    · rintro ⟨hd, hlow, hfut⟩
      have hP := pendingFilter_iff.2 ⟨hd, hlow⟩
      obtain ⟨tk', hrow⟩ := pendingRows_find_row htasks hr hP
      obtain ⟨u₀, hiff, _, _, _, _⟩ :=
        (processAll_IsLive_mem hW now true true msg hrowsn hrow).2 (not_le.2 hfut)
      exact ⟨u₀, (liveTimer_some_iff hW').2 ((hiff u₀).2 rfl)⟩
  · intro u hu
    obtain ⟨_, _, hrun, hrem⟩ := hmain u ((liveTimer_some_iff hW').1 hu)
    exact ⟨hrun, hrem⟩

/-! ### Further helper lemmas for `markDelivered` -/

theorem markDelivered_timers_length (s : ServiceState) (rid : String) (ok : Bool) :
    (markDelivered s rid ok).1.timers.length = s.timers.length := by
  unfold markDelivered
  split
  · rfl
  · split
    · exact length_cancelTid s.timers _
    · rfl

theorem triggerReminder_timers_length (s : ServiceState) (r : Reminder) (t : Task)
    (hOk sOk : Bool) (msg : String) :
    (triggerReminder s r t hOk sOk msg).timers.length = s.timers.length := by
  unfold triggerReminder
  split
  · rfl
  · split
    · rfl
    · split
      · rename_i s₂ heq
        have h2 := markDelivered_timers_length
          { s with fired := s.fired ++ [(r.id, t.id)] } r.id sOk
        rw [heq] at h2
        exact h2
      · rename_i s₂ e heq
        have h2 := markDelivered_timers_length
          { s with fired := s.fired ++ [(r.id, t.id)] } r.id sOk
        rw [heq] at h2
        exact h2

theorem cancelExisting_timers_length (s : ServiceState) (rid : String) :
    (cancelExisting s rid).timers.length = s.timers.length := by
  unfold cancelExisting
  split
  · exact length_cancelTid s.timers _
  · rfl

theorem storeMarkDelivered_ok' {store : List Reminder} {rid : String}
    (h : store.any (fun rm => rm.id == rid) = true) :
    storeMarkDelivered store rid true = .ok (setDelivered store rid) :=
  storeMarkDelivered_ok h

theorem setDelivered_any (store : List Reminder) (rid x : String) :
    ((setDelivered store rid).any fun rm => rm.id == x) =
      (store.any fun rm => rm.id == x) := by
  induction store with
  | nil => rfl
  | cons rm store ih =>
    unfold setDelivered at ih ⊢
    rw [List.map_cons, List.any_cons, List.any_cons, ih]
    by_cases h : rm.id == rid
    · rw [if_pos h]
    · rw [if_neg h]

theorem setDelivered_idem (store : List Reminder) (rid : String) :
    setDelivered (setDelivered store rid) rid = setDelivered store rid := by
  unfold setDelivered
  rw [List.map_map]
  apply List.map_congr_left
  intro rm _
  by_cases h : rm.id == rid
  · simp only [Function.comp_apply, if_pos h]
  · simp only [Function.comp_apply, if_neg h]

theorem setDelivered_mem {store : List Reminder} {rid : String} {rm : Reminder}
    (h : rm ∈ setDelivered store rid) (he : rm.id = rid) : rm.delivered = true := by
  obtain ⟨rm₀, _, heq⟩ := List.mem_map.1 h
  by_cases h0 : rm₀.id == rid
  · rw [if_pos h0] at heq
    rw [← heq]
  · rw [if_neg h0] at heq
    subst heq
    rw [he] at h0
    simp at h0

theorem markDelivered_store_of_ok {s : ServiceState} {rid : String}
    (hex : s.store.any (fun rm => rm.id == rid) = true) :
    (markDelivered s rid true).1.store = setDelivered s.store rid := by
  cases hj : mapLookup s.jobs rid with
  | none => rw [markDelivered_of_ok_none (storeMarkDelivered_ok' hex) hj]
  | some tid₀ => rw [markDelivered_of_ok_some (storeMarkDelivered_ok' hex) hj]

theorem markDelivered_snd_of_ok {s : ServiceState} {rid : String}
    (hex : s.store.any (fun rm => rm.id == rid) = true) :
    (markDelivered s rid true).2 = none := by
  cases hj : mapLookup s.jobs rid with
  | none => rw [markDelivered_of_ok_none (storeMarkDelivered_ok' hex) hj]
  | some tid₀ => rw [markDelivered_of_ok_some (storeMarkDelivered_ok' hex) hj]

theorem markDelivered_jobs_lookup {s : ServiceState} {rid : String}
    (hex : s.store.any (fun rm => rm.id == rid) = true) :
    mapLookup (markDelivered s rid true).1.jobs rid = none := by
  cases hj : mapLookup s.jobs rid with
  | none =>
    rw [markDelivered_of_ok_none (storeMarkDelivered_ok' hex) hj]
    exact hj
  | some tid₀ =>
    rw [markDelivered_of_ok_some (storeMarkDelivered_ok' hex) hj]
    exact mapLookup_mapErase_self s.jobs rid

theorem markDelivered_no_live {s : ServiceState} (hW : WF s) {rid : String}
    (hex : s.store.any (fun rm => rm.id == rid) = true) :
    ∀ u ∈ (markDelivered s rid true).1.timers, u.reminder.id = rid →
      u.cancelled = true := by
  intro u hu hid
  by_contra hcn
  rw [Bool.not_eq_true] at hcn
  cases hj : mapLookup s.jobs rid with
  | none =>
    rw [markDelivered_of_ok_none (storeMarkDelivered_ok' hex) hj] at hu
    have hm := hW.live_mapped u hu hcn
    rw [hid, hj] at hm
    cases hm
  | some tid₀ =>
    rw [markDelivered_of_ok_some (storeMarkDelivered_ok' hex) hj] at hu
    obtain ⟨hmem, hne⟩ := cancelTid_mem_live hu hcn
    have hm := hW.live_mapped u hmem hcn
    rw [hid, hj] at hm
    exact hne (Option.some_inj.1 hm.symm)

/-! ### Digest scheduler lemmas -/

theorem mapLookupD_cons (p : (Int × Int) × Nat) (m : List ((Int × Int) × Nat))
    (k : Int × Int) :
    mapLookupD (p :: m) k = if p.1 = k then some p.2 else mapLookupD m k := by
  by_cases h : p.1 = k
  · rw [if_pos h]
    unfold mapLookupD
    rw [List.find?_cons_of_pos _ (by simp [h])]
    rfl
  · rw [if_neg h]
    unfold mapLookupD
    rw [List.find?_cons_of_neg _ (by simp [h])]

theorem mapLookupD_mapEraseD_self (m : List ((Int × Int) × Nat)) (k : Int × Int) :
    mapLookupD (mapEraseD m k) k = none := by
  unfold mapLookupD
  rw [Option.map_eq_none']
  rw [List.find?_eq_none]
  intro p hp
  have h2 := List.of_mem_filter hp
  simp only [bne_iff_ne, ne_eq] at h2
  simp [h2]

theorem mapLookupD_mapSetD_self (m : List ((Int × Int) × Nat)) (k : Int × Int) (v : Nat) :
    mapLookupD (mapSetD m k v) k = some v := by
  have h : mapLookupD (mapEraseD m k) k = none := mapLookupD_mapEraseD_self m k
  have h' : List.find? (fun p => p.1 == k) (mapEraseD m k) = none := by
    unfold mapLookupD at h
    exact Option.map_eq_none'.1 h
  unfold mapSetD mapLookupD
  rw [List.find?_append, h', Option.none_or]
  rw [List.find?_cons_of_pos _ (by simp)]
  rfl

theorem cancelTidD_mem_live {ts : List DigestTimerRec} {tid : Nat} {t' : DigestTimerRec}
    (h : t' ∈ cancelTidD ts tid) (hc : t'.cancelled = false) :
    t' ∈ ts ∧ t'.tid ≠ tid := by
  obtain ⟨t, ht, he⟩ := List.mem_map.1 h
  by_cases h1 : t.tid = tid
  · rw [if_pos h1] at he
    rw [← he] at hc
    simp at hc
  · rw [if_neg h1] at he
    subst he
    exact ⟨ht, h1⟩

theorem cancelExistingD_of_none {st : DigestState} {k : Int × Int}
    (h : mapLookupD st.jobs k = none) : cancelExistingD st k = st := by
  unfold cancelExistingD
  rw [h]

theorem cancelExistingD_of_some {st : DigestState} {k : Int × Int} {tid₀ : Nat}
    (h : mapLookupD st.jobs k = some tid₀) :
    cancelExistingD st k = { st with timers := cancelTidD st.timers tid₀ } := by
  unfold cancelExistingD
  rw [h]

theorem cancelExistingD_no_live {st : DigestState} (hW : WFD st) (k : Int × Int) :
    ∀ u ∈ (cancelExistingD st k).timers, u.kind = .digest k.1 k.2 →
      u.cancelled = true := by
  intro u hu hk
  by_contra hcn
  rw [Bool.not_eq_true] at hcn
  cases hl : mapLookupD st.jobs k with
  | none =>
    rw [cancelExistingD_of_none hl] at hu
    have hm := hW.live_mapped u hu k.1 k.2 hk hcn
    rw [hl] at hm
    cases hm
  | some tid₀ =>
    rw [cancelExistingD_of_some hl] at hu
    obtain ⟨hmem, hne⟩ := cancelTidD_mem_live hu hcn
    have hm := hW.live_mapped u hmem k.1 k.2 hk hcn
    rw [hl] at hm
    exact hne (Option.some_inj.1 hm.symm)

theorem cancelExistingD_jobs (st : DigestState) (k : Int × Int) :
    (cancelExistingD st k).jobs = st.jobs := by
  unfold cancelExistingD
  split <;> rfl

theorem cancelExistingD_nextTid (st : DigestState) (k : Int × Int) :
    (cancelExistingD st k).nextTid = st.nextTid := by
  unfold cancelExistingD
  split <;> rfl

theorem scheduleDigest_true (st : DigestState) (chatId userId : Int) (cron : String) :
    scheduleDigest st chatId userId cron true =
      { cancelExistingD st (chatId, userId) with
        timers := (cancelExistingD st (chatId, userId)).timers ++
          [⟨(cancelExistingD st (chatId, userId)).nextTid, .digest chatId userId,
            cron, false⟩],
        jobs := mapSetD (cancelExistingD st (chatId, userId)).jobs (chatId, userId)
          (cancelExistingD st (chatId, userId)).nextTid,
        nextTid := (cancelExistingD st (chatId, userId)).nextTid + 1 } := rfl

theorem cancelDigest_of_none {st : DigestState} {chatId userId : Int}
    (h : mapLookupD st.jobs (chatId, userId) = none) :
    cancelDigest st chatId userId = st := by
  unfold cancelDigest
  rw [h]

theorem WFD_mkDigest (prefs : List UserPreference) : WFD (mkDigest prefs) := by
  refine ⟨?_, ?_, ?_⟩ <;> simp [mkDigest]

theorem digestRestoreStep_jobs (acc : DigestState) (u : UserPreference) :
    (digestRestoreStep acc u).jobs = acc.jobs := by
  unfold digestRestoreStep
  split
  · split <;> rfl
  · rfl

theorem digestRestoreStep_timers (acc : DigestState) (u : UserPreference) :
    (digestRestoreStep acc u).timers = acc.timers := by
  unfold digestRestoreStep
  split
  · split <;> rfl
  · rfl

theorem digestRestoreStep_nextTid (acc : DigestState) (u : UserPreference) :
    (digestRestoreStep acc u).nextTid = acc.nextTid := by
  unfold digestRestoreStep
  split
  · split <;> rfl
  · rfl

theorem digestRestoreStep_logs (acc : DigestState) (u : UserPreference) :
    (digestRestoreStep acc u).logs =
      acc.logs ++ (if digestTruthy u then [digestDebugEntry u] else []) := by
  cases hc : u.digestScheduleCron with
  | none => simp [digestRestoreStep, digestTruthy, hc]
  | some c =>
    by_cases hce : c == ""
    · simp [digestRestoreStep, digestTruthy, hc, hce]
    · simp [digestRestoreStep, digestTruthy, digestDebugEntry, hc, hce]

theorem digestRestore_foldl_jobs (l : List UserPreference) (st : DigestState) :
    (l.foldl digestRestoreStep st).jobs = st.jobs := by
  induction l generalizing st with
  | nil => rfl
  | cons u l ih =>
    rw [List.foldl_cons, ih, digestRestoreStep_jobs]

theorem digestRestore_foldl_timers (l : List UserPreference) (st : DigestState) :
    (l.foldl digestRestoreStep st).timers = st.timers := by
  induction l generalizing st with
  | nil => rfl
  | cons u l ih =>
    rw [List.foldl_cons, ih, digestRestoreStep_timers]

theorem digestRestore_foldl_nextTid (l : List UserPreference) (st : DigestState) :
    (l.foldl digestRestoreStep st).nextTid = st.nextTid := by
  induction l generalizing st with
  | nil => rfl
  | cons u l ih =>
    rw [List.foldl_cons, ih, digestRestoreStep_nextTid]

theorem digestRestore_foldl_logs (l : List UserPreference) (st : DigestState) :
    (l.foldl digestRestoreStep st).logs =
      st.logs ++ (l.filter digestTruthy).map digestDebugEntry := by
  induction l generalizing st with
  | nil => simp
  | cons u l ih =>
    rw [List.foldl_cons, ih, digestRestoreStep_logs]
    by_cases ht : digestTruthy u
    · rw [if_pos ht, List.filter_cons_of_pos ht, List.map_cons, List.append_assoc]
      rfl
    · rw [if_neg ht, List.filter_cons_of_neg (by simp [ht]), List.append_nil]

theorem restoreScheduledDigests_true (st : DigestState) :
    restoreScheduledDigests st true =
      (st.prefs.filter fun p => p.digestScheduleCron.isSome).foldl digestRestoreStep st :=
  rfl

theorem fireDigestTimer_recon {st : DigestState} {tid : Nat} {cron : String}
    (h : st.timers.find? (fun t => t.tid == tid) = some ⟨tid, .reconciliation, cron, false⟩)
    (tickOk storeOk : Bool) :
    fireDigestTimer st tid tickOk storeOk = restoreScheduledDigests st storeOk := by
  unfold fireDigestTimer
  rw [h]
  rfl

theorem taskFlowSchedule_of_none {s : ServiceState} {tk : Task} {senderId : Option Int}
    {prefs : List UserPreference} {now : Int} (hOk sOk : Bool) (msg : String)
    (h : reminderPlan tk senderId prefs now = none) :
    taskFlowSchedule s tk senderId prefs now hOk sOk msg = s := by
  unfold taskFlowSchedule
  rw [h]

theorem taskFlowSchedule_of_some {s : ServiceState} {tk : Task} {senderId : Option Int}
    {prefs : List UserPreference} {now : Int} {remAt : Int} {uid : Option Int}
    (hOk sOk : Bool) (msg : String)
    (h : reminderPlan tk senderId prefs now = some (remAt, uid)) :
    taskFlowSchedule s tk senderId prefs now hOk sOk msg =
      scheduleJob
        { s with store := s.store ++ [newReminder s tk remAt uid], nextRid := s.nextRid + 1 }
        (newReminder s tk remAt uid) tk now hOk sOk msg := by
  unfold taskFlowSchedule
  rw [h]
  rfl

/-- A later `init` over a store still holding an undelivered reminder
inside the grace window fires it again. -/
theorem init_refires {store : List Reminder} {tasks : List Task} {now : Int}
    (msg : String) {r : Reminder}
    (hids : (store.map fun rm => rm.id).Nodup)
    (htasks : ∀ rm ∈ store, ∃ tk ∈ tasks, tk.id = rm.taskId)
    (hr : r ∈ store) (hd : r.delivered = false)
    (hlow : now - JOB_OFFSET_MS ≤ r.remindAt)
    (hup : r.remindAt ≤ now + JOB_OFFSET_MS) :
    ∃ p ∈ (ReminderService.init (mkService store tasks) now true true msg).fired,
      p.1 = r.id :=
  ((restore_characterization
    (@WF.congr (mkService store tasks) { mkService store tasks with handlerSet := true }
      (WF_mkService store tasks) rfl rfl rfl)
    rfl rfl rfl now msg r hids htasks hr).1).2 ⟨hd, hlow, hup⟩

/-! ### Claim theorems -/

/-- C1: for every store state, `init` (`restorePendingReminders`) schedules
exactly the reminders with `delivered = false` and
`remindAt ≥ now - JOB_OFFSET_MS`: such a reminder fires immediately when
`remindAt ≤ now + JOB_OFFSET_MS` and otherwise gets a live timer at
wall-clock time `remindAt`; a delivered reminder or one more than the grace
window in the past is neither fired nor given a timer. -/
theorem claim_C1 (store : List Reminder) (tasks : List Task) (now : Int)
    (msg : String) (r : Reminder)
    (hids : (store.map fun rm => rm.id).Nodup)
    (htasks : ∀ rm ∈ store, ∃ tk ∈ tasks, tk.id = rm.taskId)
    (hr : r ∈ store) :
    ((∃ p ∈ (ReminderService.init (mkService store tasks) now true true msg).fired,
        p.1 = r.id) ↔
      (r.delivered = false ∧ now - JOB_OFFSET_MS ≤ r.remindAt ∧
        r.remindAt ≤ now + JOB_OFFSET_MS)) ∧
    ((∃ u, liveTimer (ReminderService.init (mkService store tasks) now true true msg)
        r.id = some u) ↔
      (r.delivered = false ∧ now - JOB_OFFSET_MS ≤ r.remindAt ∧
        now + JOB_OFFSET_MS < r.remindAt)) ∧
    (∀ u, liveTimer (ReminderService.init (mkService store tasks) now true true msg)
        r.id = some u → u.runAt = r.remindAt ∧ u.reminder = r) :=
  restore_characterization
    (@WF.congr (mkService store tasks) { mkService store tasks with handlerSet := true }
      (WF_mkService store tasks) rfl rfl rfl)
    rfl rfl rfl now msg r hids htasks hr

/-- Witness for C1: the recovery-completeness scenario (reminders at
`now - 2s`, `now + 10s`, `now + 1000s` and `now - 1h` with `now = 0`),
instantiated at the `now + 10s` reminder. -/
theorem claim_C1_witness :
    ((∃ p ∈ (ReminderService.init (mkService
        [⟨"a", "t", none, -2000, false⟩, ⟨"b", "t", none, 10000, false⟩,
         ⟨"c", "t", none, 1000000, false⟩, ⟨"d", "t", none, -3600000, false⟩]
        [⟨"t", none, none⟩]) 0 true true "m").fired, p.1 = "b") ↔
      (false = false ∧ (0 : Int) - JOB_OFFSET_MS ≤ 10000 ∧
        (10000 : Int) ≤ 0 + JOB_OFFSET_MS)) ∧
    ((∃ u, liveTimer (ReminderService.init (mkService
        [⟨"a", "t", none, -2000, false⟩, ⟨"b", "t", none, 10000, false⟩,
         ⟨"c", "t", none, 1000000, false⟩, ⟨"d", "t", none, -3600000, false⟩]
        [⟨"t", none, none⟩]) 0 true true "m") "b" = some u) ↔
      (false = false ∧ (0 : Int) - JOB_OFFSET_MS ≤ 10000 ∧
        (0 : Int) + JOB_OFFSET_MS < 10000)) ∧
    (∀ u, liveTimer (ReminderService.init (mkService
        [⟨"a", "t", none, -2000, false⟩, ⟨"b", "t", none, 10000, false⟩,
         ⟨"c", "t", none, 1000000, false⟩, ⟨"d", "t", none, -3600000, false⟩]
        [⟨"t", none, none⟩]) 0 true true "m") "b" = some u →
      u.runAt = 10000 ∧ u.reminder = ⟨"b", "t", none, 10000, false⟩) :=
  claim_C1
    [⟨"a", "t", none, -2000, false⟩, ⟨"b", "t", none, 10000, false⟩,
     ⟨"c", "t", none, 1000000, false⟩, ⟨"d", "t", none, -3600000, false⟩]
    [⟨"t", none, none⟩] 0 "m" ⟨"b", "t", none, 10000, false⟩
    (by decide) (by decide) (by decide)

/-- C2: `scheduleJob` fires the reminder directly (it calls
`triggerReminder` on the cancel-existing state, creates no timer and leaves
the timer counter alone) when `remindAt ≤ now + JOB_OFFSET_MS`, and
otherwise registers a fresh one-shot timer for wall-clock time `remindAt`,
stores its handle in the map under the reminder id, and does not invoke the
handler. -/
theorem claim_C2 (s : ServiceState) (r : Reminder) (t : Task) (now : Int)
    (hOk sOk : Bool) (msg : String) (hW : WF s) :
    (r.remindAt ≤ now + JOB_OFFSET_MS →
      scheduleJob s r t now hOk sOk msg =
        triggerReminder (cancelExisting s r.id) r t hOk sOk msg ∧
      (scheduleJob s r t now hOk sOk msg).nextTid = s.nextTid ∧
      (scheduleJob s r t now hOk sOk msg).timers.length = s.timers.length) ∧
    (now + JOB_OFFSET_MS < r.remindAt →
      (scheduleJob s r t now hOk sOk msg).fired = s.fired ∧
      mapLookup (scheduleJob s r t now hOk sOk msg).jobs r.id = some s.nextTid ∧
      liveTimer (scheduleJob s r t now hOk sOk msg) r.id =
        some ⟨s.nextTid, r.remindAt, r, t, false⟩) := by
  constructor
  · intro him
    refine ⟨scheduleJob_of_immediate hOk sOk msg him, ?_, ?_⟩
    · rw [scheduleJob_of_immediate hOk sOk msg him, triggerReminder_nextTid,
        cancelExisting_nextTid]
    · rw [scheduleJob_of_immediate hOk sOk msg him, triggerReminder_timers_length,
        cancelExisting_timers_length]
  · intro hfut
    have hf := not_le.2 hfut
    refine ⟨?_, ?_, ?_⟩
    · rw [scheduleJob_of_future hOk sOk msg hf]
      exact cancelExisting_fired s r.id
    · rw [scheduleJob_of_future hOk sOk msg hf]
      show mapLookup (mapSet (cancelExisting s r.id).jobs r.id
        (cancelExisting s r.id).nextTid) r.id = some s.nextTid
      rw [mapLookup_mapSet_self, cancelExisting_nextTid]
    · have h2 := @scheduleJob_IsLive_future s hW r t now hOk sOk msg hf
        ⟨s.nextTid, r.remindAt, r, t, false⟩
      rw [cancelExisting_nextTid] at h2
      exact (liveTimer_some_iff (WF_scheduleJob hW r t now hOk sOk msg)).2
        (h2.2 rfl)

/-- Witness for C2 at a well-formed concrete state, exercising both the
immediate branch (`remindAt = 0`, `now = 0`) through the conjunction's first
component. -/
theorem claim_C2_witness :
    (((0 : Int) ≤ 0 + JOB_OFFSET_MS →
      scheduleJob (mkService [] []) ⟨"r", "t", none, 0, false⟩ ⟨"t", none, none⟩ 0
          true true "m" =
        triggerReminder (cancelExisting (mkService [] []) "r")
          ⟨"r", "t", none, 0, false⟩ ⟨"t", none, none⟩ true true "m" ∧
      (scheduleJob (mkService [] []) ⟨"r", "t", none, 0, false⟩ ⟨"t", none, none⟩ 0
          true true "m").nextTid = (mkService [] []).nextTid ∧
      (scheduleJob (mkService [] []) ⟨"r", "t", none, 0, false⟩ ⟨"t", none, none⟩ 0
          true true "m").timers.length = (mkService [] []).timers.length) ∧
    ((0 : Int) + JOB_OFFSET_MS < 0 →
      (scheduleJob (mkService [] []) ⟨"r", "t", none, 0, false⟩ ⟨"t", none, none⟩ 0
          true true "m").fired = (mkService [] []).fired ∧
      mapLookup (scheduleJob (mkService [] []) ⟨"r", "t", none, 0, false⟩
          ⟨"t", none, none⟩ 0 true true "m").jobs "r" = some (mkService [] []).nextTid ∧
      liveTimer (scheduleJob (mkService [] []) ⟨"r", "t", none, 0, false⟩
          ⟨"t", none, none⟩ 0 true true "m") "r" =
        some ⟨(mkService [] []).nextTid, 0, ⟨"r", "t", none, 0, false⟩,
          ⟨"t", none, none⟩, false⟩)) :=
  claim_C2 (mkService [] []) ⟨"r", "t", none, 0, false⟩ ⟨"t", none, none⟩ 0
    true true "m" (WF_mkService [] [])

/-- C4: from a fresh service over any store, after any sequence of
operations (scheduling, manual delivery, init sweeps, timer firings) at
most one non-cancelled in-memory timer exists per reminder identifier. -/
theorem claim_C4 (store : List Reminder) (tasks : List Task) (ops : List Op)
    (rid : String) :
    (liveTimersFor (runOps (mkService store tasks) ops) rid).length ≤ 1 :=
  liveTimersFor_length_le_one (WF_runOps _ (WF_mkService store tasks) ops) rid

/-- C5: `markDelivered` on a reminder that exists in the store succeeds, is
idempotent (a second call returns the identical state and outcome), leaves
the row's `delivered` flag true, leaves no live timer for the identifier,
and when no in-memory timer matches it only updates the store row. -/
theorem claim_C5 (s : ServiceState) (rid : String) (hW : WF s)
    (hex : s.store.any (fun rm => rm.id == rid) = true) :
    (markDelivered s rid true).2 = none ∧
    markDelivered (markDelivered s rid true).1 rid true = markDelivered s rid true ∧
    (∀ rm ∈ (markDelivered s rid true).1.store, rm.id = rid → rm.delivered = true) ∧
    liveTimersFor (markDelivered s rid true).1 rid = [] ∧
    (mapLookup s.jobs rid = none →
      (markDelivered s rid true).1 = { s with store := setDelivered s.store rid }) := by
  have hst := markDelivered_store_of_ok hex
  have hsnd := markDelivered_snd_of_ok hex
  have hex1 : (markDelivered s rid true).1.store.any (fun rm => rm.id == rid) = true := by
    rw [hst, setDelivered_any]
    exact hex
  refine ⟨hsnd, ?_, ?_, ?_, ?_⟩
  · have hj1 := markDelivered_jobs_lookup hex
    have h2 := markDelivered_of_ok_none (storeMarkDelivered_ok' hex1) hj1
    have h3 : setDelivered (markDelivered s rid true).1.store rid =
        (markDelivered s rid true).1.store := by
      rw [hst, setDelivered_idem]
    rw [h2, h3, ← hsnd]
  · intro rm hm he
    rw [hst] at hm
    exact setDelivered_mem hm he
  · rw [liveTimersFor, List.filter_eq_nil_iff]
    intro u hu hb
    rw [Bool.and_eq_true, beq_iff_eq, Bool.not_eq_true'] at hb
    obtain ⟨hid, hcf⟩ := hb
    have hct := markDelivered_no_live hW hex u hu hid
    rw [hct] at hcf
    cases hcf
  · intro hj
    exact congrArg Prod.fst (markDelivered_of_ok_none (storeMarkDelivered_ok' hex) hj)

/-- Witness for C5 on a one-row store with no in-memory timer. -/
theorem claim_C5_witness :
    (markDelivered (mkService [⟨"r", "t", none, 0, false⟩] []) "r" true).2 = none ∧
    markDelivered (markDelivered (mkService [⟨"r", "t", none, 0, false⟩] []) "r" true).1
        "r" true =
      markDelivered (mkService [⟨"r", "t", none, 0, false⟩] []) "r" true ∧
    (∀ rm ∈ (markDelivered (mkService [⟨"r", "t", none, 0, false⟩] []) "r" true).1.store,
      rm.id = "r" → rm.delivered = true) ∧
    liveTimersFor (markDelivered (mkService [⟨"r", "t", none, 0, false⟩] []) "r" true).1
      "r" = [] ∧
    (mapLookup (mkService [⟨"r", "t", none, 0, false⟩] []).jobs "r" = none →
      (markDelivered (mkService [⟨"r", "t", none, 0, false⟩] []) "r" true).1 =
        { mkService [⟨"r", "t", none, 0, false⟩] [] with
          store := setDelivered [⟨"r", "t", none, 0, false⟩] "r" }) :=
  claim_C5 (mkService [⟨"r", "t", none, 0, false⟩] []) "r"
    (WF_mkService [⟨"r", "t", none, 0, false⟩] []) (by decide)

/-- C10: `markDelivered` on an identifier with no matching store row rejects
with the record-not-found error and leaves the whole state (the in-memory
timer map included) untouched. -/
theorem claim_C10 (s : ServiceState) (rid : String)
    (hnone : s.store.any (fun rm => rm.id == rid) = false) :
    markDelivered s rid true = (s, some .recordNotFound) :=
  markDelivered_of_error (storeMarkDelivered_notFound hnone)

/-- Witness for C10 on an empty store. -/
theorem claim_C10_witness :
    markDelivered (mkService [] []) "missing" true =
      (mkService [] [], some .recordNotFound) :=
  claim_C10 (mkService [] []) "missing" (by decide)

/-- C6 counterexample: with one persisted preference declaring the
recurrence expression "0 9 * * *", `init` schedules no recurring digest job
at all — there is no digest-kind timer and the jobs map is empty — even
though the claim requires one recurring digest job per such preference. -/
theorem claim_C6_counterexample :
    ((mkDigest [⟨"7", some "0 9 * * *", some 120⟩]).prefs.filter
      (fun p => p.digestScheduleCron.isSome)).length = 1 ∧
    ((DigestService.init (mkDigest [⟨"7", some "0 9 * * *", some 120⟩]) true).timers.filter
      (fun tr => match tr.kind with
        | .digest _ _ => true
        | .reconciliation => false)) = [] ∧
    (DigestService.init (mkDigest [⟨"7", some "0 9 * * *", some 120⟩]) true).jobs = [] := by
  decide

/-- C6 (amended): `init` registers the hourly ("0 * * * *") reconciliation
job (whose handle is not stored in the jobs map) and runs the reconciliation
once; the reconciliation queries the preferences with a recurrence
expression but only logs one placeholder debug entry per truthy preference,
scheduling no per-preference digest job; firing the hourly job re-runs the
same reconciliation routine. -/
theorem claim_C6 (prefs : List UserPreference) :
    (DigestService.init (mkDigest prefs) true).jobs = [] ∧
    (DigestService.init (mkDigest prefs) true).timers =
      [⟨0, .reconciliation, "0 * * * *", false⟩] ∧
    (DigestService.init (mkDigest prefs) true).logs =
      ((prefs.filter fun p => p.digestScheduleCron.isSome).filter digestTruthy).map
        digestDebugEntry ∧
    (∀ tickOk : Bool,
      fireDigestTimer (DigestService.init (mkDigest prefs) true) 0 tickOk true =
        restoreScheduledDigests (DigestService.init (mkDigest prefs) true) true) := by
  have hjobs : (restoreScheduledDigests { mkDigest prefs with botApiSet := true }
      true).jobs = [] := by
    rw [restoreScheduledDigests_true, digestRestore_foldl_jobs]
    rfl
  have htimers : (restoreScheduledDigests { mkDigest prefs with botApiSet := true }
      true).timers = [] := by
    rw [restoreScheduledDigests_true, digestRestore_foldl_timers]
    rfl
  have hnext : (restoreScheduledDigests { mkDigest prefs with botApiSet := true }
      true).nextTid = 0 := by
    rw [restoreScheduledDigests_true, digestRestore_foldl_nextTid]
    rfl
  have hlogs : (restoreScheduledDigests { mkDigest prefs with botApiSet := true }
      true).logs =
      ((prefs.filter fun p => p.digestScheduleCron.isSome).filter digestTruthy).map
        digestDebugEntry := by
    rw [restoreScheduledDigests_true, digestRestore_foldl_logs]
    rfl
  refine ⟨?_, ?_, ?_, ?_⟩
  · show (restoreScheduledDigests { mkDigest prefs with botApiSet := true } true).jobs = []
    exact hjobs
  · show (restoreScheduledDigests { mkDigest prefs with botApiSet := true } true).timers ++
      [⟨(restoreScheduledDigests { mkDigest prefs with botApiSet := true } true).nextTid,
        .reconciliation, "0 * * * *", false⟩] =
      [⟨0, .reconciliation, "0 * * * *", false⟩]
    rw [htimers, hnext]
    rfl
  · show (restoreScheduledDigests { mkDigest prefs with botApiSet := true } true).logs = _
    exact hlogs
  · intro tickOk
    apply fireDigestTimer_recon
    show List.find? (fun t => t.tid == 0)
      ((restoreScheduledDigests { mkDigest prefs with botApiSet := true } true).timers ++
        [⟨(restoreScheduledDigests { mkDigest prefs with botApiSet := true } true).nextTid,
          .reconciliation, "0 * * * *", false⟩]) =
      some ⟨0, .reconciliation, "0 * * * *", false⟩
    rw [htimers, hnext]
    rfl

/-- C8: re-scheduling a digest for the same (chat, user) key cancels the
previous recurring timer before the new one is registered, so after two
calls with different cron expressions only the second expression's live
recurring timer remains; `cancelDigest` on a key with no map entry is a
no-op. -/
theorem claim_C8 (st : DigestState) (chatId userId : Int) (c₁ c₂ : String)
    (hW : WFD st) :
    (liveDigestFor (scheduleDigest (scheduleDigest st chatId userId c₁ true)
        chatId userId c₂ true) (chatId, userId)).map (fun tr => tr.cron) = [c₂] ∧
    (∀ chat' user' : Int, mapLookupD st.jobs (chat', user') = none →
      cancelDigest st chat' user' = st) := by
  refine ⟨?_, fun chat' user' h => cancelDigest_of_none h⟩
  have hl1 : mapLookupD (scheduleDigest st chatId userId c₁ true).jobs (chatId, userId) =
      some (cancelExistingD st (chatId, userId)).nextTid := by
    rw [scheduleDigest_true]
    exact mapLookupD_mapSetD_self _ _ _
  rw [scheduleDigest_true (scheduleDigest st chatId userId c₁ true) chatId userId c₂]
  show (((cancelExistingD (scheduleDigest st chatId userId c₁ true)
      (chatId, userId)).timers ++
      [(⟨(cancelExistingD (scheduleDigest st chatId userId c₁ true)
          (chatId, userId)).nextTid, .digest chatId userId, c₂, false⟩ : DigestTimerRec)]).filter
      (fun t : DigestTimerRec => t.kind == .digest chatId userId && !t.cancelled)).map
      (fun tr : DigestTimerRec => tr.cron) = [c₂]
  rw [List.filter_append]
  have hnil : ((cancelExistingD (scheduleDigest st chatId userId c₁ true)
      (chatId, userId)).timers.filter
      (fun t => t.kind == .digest chatId userId && !t.cancelled)) = [] := by
    rw [List.filter_eq_nil_iff]
    intro u hu hb
    rw [Bool.and_eq_true, beq_iff_eq, Bool.not_eq_true'] at hb
    obtain ⟨hk, hc⟩ := hb
    rw [cancelExistingD_of_some hl1] at hu
    obtain ⟨hmem, hne⟩ := cancelTidD_mem_live hu hc
    rw [scheduleDigest_true] at hmem
    rcases List.mem_append.1 hmem with h | h
    · have h2 := cancelExistingD_no_live hW (chatId, userId) u h hk
      rw [h2] at hc
      cases hc
    · rw [List.mem_singleton] at h
      subst h
      exact hne rfl
  rw [hnil, List.nil_append]
  have hone : (([⟨(cancelExistingD (scheduleDigest st chatId userId c₁ true)
        (chatId, userId)).nextTid, .digest chatId userId, c₂, false⟩] :
      List DigestTimerRec).filter
      (fun t => t.kind == .digest chatId userId && !t.cancelled)) =
      [⟨(cancelExistingD (scheduleDigest st chatId userId c₁ true)
        (chatId, userId)).nextTid, .digest chatId userId, c₂, false⟩] := by
    rw [List.filter_cons_of_pos (by simp)]
    rfl
  rw [hone]
  rfl

/-- Witness for C8 from the empty digest scheduler. -/
theorem claim_C8_witness :
    (liveDigestFor (scheduleDigest (scheduleDigest (mkDigest []) 5 7 "1 * * * *" true)
        5 7 "2 * * * *" true) (5, 7)).map (fun tr => tr.cron) = ["2 * * * *"] ∧
    (∀ chat' user' : Int, mapLookupD (mkDigest []).jobs (chat', user') = none →
      cancelDigest (mkDigest []) chat' user' = mkDigest []) :=
  claim_C8 (mkDigest []) 5 7 "1 * * * *" "2 * * * *" (WFD_mkDigest [])

/-- C3 counterexample: when the delivery handler throws on a concrete
reminder, the only log entry written carries the error and a location tag
but mentions neither the reminder identifier "rem-1" nor the task
identifier "task-1" anywhere in its message, keys or values — the claim's
"logged with the reminder and task identifiers" is false of the code. -/
theorem claim_C3_counterexample :
    (triggerReminder
        { mkService [⟨"rem-1", "task-1", none, 0, false⟩] [⟨"task-1", none, none⟩] with
          handlerSet := true }
        ⟨"rem-1", "task-1", none, 0, false⟩ ⟨"task-1", none, none⟩ false true
        "boom").logs =
      [⟨.error, "Ошибка обработки напоминания",
        [("error", "boom"), ("location", "processReminder")]⟩] ∧
    (∀ e ∈ (triggerReminder
        { mkService [⟨"rem-1", "task-1", none, 0, false⟩] [⟨"task-1", none, none⟩] with
          handlerSet := true }
        ⟨"rem-1", "task-1", none, 0, false⟩ ⟨"task-1", none, none⟩ false true
        "boom").logs,
      logMentions e "rem-1" = false ∧ logMentions e "task-1" = false) := by
  decide

/-- C3 (amended): on handler failure `triggerReminder` appends the handler
invocation and one error log entry holding only the error and the
`processReminder` location tag (not the reminder or task identifiers),
leaves the store untouched (no `delivered` write) with no in-process retry,
and a later `init` over the same store re-schedules and re-fires a reminder
still inside the grace window. -/
theorem claim_C3 (s : ServiceState) (r : Reminder) (t : Task) (sOk : Bool)
    (msg : String) (hh : s.handlerSet = true) :
    (triggerReminder s r t false sOk msg =
      { s with fired := s.fired ++ [(r.id, t.id)],
               logs := s.logs ++
                 [⟨.error, "Ошибка обработки напоминания",
                   [("error", msg), ("location", "processReminder")]⟩] }) ∧
    ((triggerReminder s r t false sOk msg).store = s.store) ∧
    (∀ (now' : Int) (msg' : String) (tasks : List Task),
      (s.store.map fun rm => rm.id).Nodup →
      (∀ rm ∈ s.store, ∃ tk ∈ tasks, tk.id = rm.taskId) →
      r ∈ s.store → r.delivered = false →
      now' - JOB_OFFSET_MS ≤ r.remindAt → r.remindAt ≤ now' + JOB_OFFSET_MS →
      ∃ p ∈ (ReminderService.init
        (mkService (triggerReminder s r t false sOk msg).store tasks)
        now' true true msg').fired, p.1 = r.id) := by
  have he := triggerReminder_of_handlerErr r t sOk msg hh
  have hstore : (triggerReminder s r t false sOk msg).store = s.store := by rw [he]
  refine ⟨he, hstore, ?_⟩
  intro now' msg' tasks hids htasks hr hd hlow hup
  rw [hstore]
  exact init_refires msg' hids htasks hr hd hlow hup

/-- Witness for C3 on a one-reminder store with the handler throwing
"boom". -/
theorem claim_C3_witness :
    (triggerReminder
        { mkService [⟨"r", "t", none, 0, false⟩] [⟨"t", none, none⟩] with
          handlerSet := true }
        ⟨"r", "t", none, 0, false⟩ ⟨"t", none, none⟩ false true "boom" =
      { mkService [⟨"r", "t", none, 0, false⟩] [⟨"t", none, none⟩] with
        handlerSet := true, fired := [("r", "t")],
        logs := [⟨.error, "Ошибка обработки напоминания",
          [("error", "boom"), ("location", "processReminder")]⟩] }) ∧
    ((triggerReminder
        { mkService [⟨"r", "t", none, 0, false⟩] [⟨"t", none, none⟩] with
          handlerSet := true }
        ⟨"r", "t", none, 0, false⟩ ⟨"t", none, none⟩ false true "boom").store =
      [⟨"r", "t", none, 0, false⟩]) ∧
    (∀ (now' : Int) (msg' : String) (tasks : List Task),
      (([⟨"r", "t", none, 0, false⟩] : List Reminder).map fun rm => rm.id).Nodup →
      (∀ rm ∈ ([⟨"r", "t", none, 0, false⟩] : List Reminder),
        ∃ tk ∈ tasks, tk.id = rm.taskId) →
      (⟨"r", "t", none, 0, false⟩ : Reminder) ∈ ([⟨"r", "t", none, 0, false⟩] : List Reminder) →
      false = false →
      now' - JOB_OFFSET_MS ≤ 0 → (0 : Int) ≤ now' + JOB_OFFSET_MS →
      ∃ p ∈ (ReminderService.init
        (mkService (triggerReminder
          { mkService [⟨"r", "t", none, 0, false⟩] [⟨"t", none, none⟩] with
            handlerSet := true }
          ⟨"r", "t", none, 0, false⟩ ⟨"t", none, none⟩ false true "boom").store tasks)
        now' true true msg').fired, p.1 = "r") :=
  claim_C3
    { mkService [⟨"r", "t", none, 0, false⟩] [⟨"t", none, none⟩] with handlerSet := true }
    ⟨"r", "t", none, 0, false⟩ ⟨"t", none, none⟩ true "boom" rfl

/-- C9: in `triggerReminder`, a store failure while persisting
`delivered = true` after a successful handler invocation is caught by the
same catch as handler failures: the handler ran exactly once, the store is
unchanged (the reminder stays `delivered = false`), the error entry is
logged and nothing propagates; a later recovery sweep over the same store
can invoke the handler again even though delivery already succeeded once. -/
theorem claim_C9 (s : ServiceState) (r : Reminder) (t : Task) (msg : String)
    (hh : s.handlerSet = true) :
    ((triggerReminder s r t true false msg).fired = s.fired ++ [(r.id, t.id)]) ∧
    ((triggerReminder s r t true false msg).store = s.store) ∧
    ((triggerReminder s r t true false msg).logs = s.logs ++
      [⟨.error, "Ошибка обработки напоминания",
        [("error", msg), ("location", "processReminder")]⟩]) ∧
    (∀ (now' : Int) (msg' : String) (tasks : List Task),
      (s.store.map fun rm => rm.id).Nodup →
      (∀ rm ∈ s.store, ∃ tk ∈ tasks, tk.id = rm.taskId) →
      r ∈ s.store → r.delivered = false →
      now' - JOB_OFFSET_MS ≤ r.remindAt → r.remindAt ≤ now' + JOB_OFFSET_MS →
      ∃ p ∈ (ReminderService.init
        (mkService (triggerReminder s r t true false msg).store tasks)
        now' true true msg').fired, p.1 = r.id) := by
  obtain ⟨sto, tks, jbs, tms, hsf, frd, lgs, nT, nR⟩ := s
  replace hh : hsf = true := hh
  subst hh
  refine ⟨rfl, rfl, rfl, ?_⟩
  intro now' msg' tasks hids htasks hr hd hlow hup
  exact init_refires msg' hids htasks hr hd hlow hup

/-- Witness for C9 with the store write rejecting after a successful
delivery. -/
theorem claim_C9_witness :
    ((triggerReminder
        { mkService [⟨"r", "t", none, 0, false⟩] [⟨"t", none, none⟩] with
          handlerSet := true }
        ⟨"r", "t", none, 0, false⟩ ⟨"t", none, none⟩ true false "io").fired =
      [("r", "t")]) ∧
    ((triggerReminder
        { mkService [⟨"r", "t", none, 0, false⟩] [⟨"t", none, none⟩] with
          handlerSet := true }
        ⟨"r", "t", none, 0, false⟩ ⟨"t", none, none⟩ true false "io").store =
      [⟨"r", "t", none, 0, false⟩]) ∧
    ((triggerReminder
        { mkService [⟨"r", "t", none, 0, false⟩] [⟨"t", none, none⟩] with
          handlerSet := true }
        ⟨"r", "t", none, 0, false⟩ ⟨"t", none, none⟩ true false "io").logs =
      [⟨.error, "Ошибка обработки напоминания",
        [("error", "io"), ("location", "processReminder")]⟩]) ∧
    (∀ (now' : Int) (msg' : String) (tasks : List Task),
      (([⟨"r", "t", none, 0, false⟩] : List Reminder).map fun rm => rm.id).Nodup →
      (∀ rm ∈ ([⟨"r", "t", none, 0, false⟩] : List Reminder),
        ∃ tk ∈ tasks, tk.id = rm.taskId) →
      (⟨"r", "t", none, 0, false⟩ : Reminder) ∈ ([⟨"r", "t", none, 0, false⟩] : List Reminder) →
      false = false →
      now' - JOB_OFFSET_MS ≤ 0 → (0 : Int) ≤ now' + JOB_OFFSET_MS →
      ∃ p ∈ (ReminderService.init
        (mkService (triggerReminder
          { mkService [⟨"r", "t", none, 0, false⟩] [⟨"t", none, none⟩] with
            handlerSet := true }
          ⟨"r", "t", none, 0, false⟩ ⟨"t", none, none⟩ true false "io").store tasks)
        now' true true msg').fired, p.1 = "r") :=
  claim_C9
    { mkService [⟨"r", "t", none, 0, false⟩] [⟨"t", none, none⟩] with handlerSet := true }
    ⟨"r", "t", none, 0, false⟩ ⟨"t", none, none⟩ "io" rfl

/-- C7 counterexample: for a task with `dueDate = T` such that
`T - 120min = now` (so `T - 120min ≤ now`), no Reminder is created at all
and the handler does not fire — `createOrUpdateTask` only schedules when
`remindAt` is strictly in the future, refuting the claim's "if
`T - 120min ≤ now`, the delivery handler fires immediately". -/
theorem claim_C7_counterexample :
    reminderPlan ⟨"tt", some 7200000, some 42⟩ none [] 0 = none ∧
    taskFlowSchedule { mkService [] [] with handlerSet := true }
        ⟨"tt", some 7200000, some 42⟩ none [] 0 true true "m" =
      { mkService [] [] with handlerSet := true } ∧
    (taskFlowSchedule { mkService [] [] with handlerSet := true }
        ⟨"tt", some 7200000, some 42⟩ none [] 0 true true "m").fired = [] ∧
    (taskFlowSchedule { mkService [] [] with handlerSet := true }
        ⟨"tt", some 7200000, some 42⟩ none [] 0 true true "m").store = [] := by
  decide

/-- C7 (amended): for a saved task with `dueDate = T`, assignee `aid` and no
preference row for `aid`, the flow plans
`remindAt = T - 120min` with recipient `aid`; a Reminder row is created only
when `remindAt` is strictly in the future (when `remindAt ≤ now` nothing is
created and nothing fires); a created reminder fires the handler
immediately when `remindAt ≤ now + 5s` and otherwise is given a live timer
at `remindAt`. -/
theorem claim_C7 (s : ServiceState) (tk : Task) (T : Int) (aid : Int)
    (senderId : Option Int) (prefs : List UserPreference) (now : Int) (msg : String)
    (hdue : tk.dueDate = some T) (hassg : tk.assigneeId = some aid)
    (hpref : prefs.find? (fun p => p.userId == toString aid) = none)
    (hh : s.handlerSet = true) (hW : WF s) :
    (reminderPlan tk senderId prefs now =
      if now < T - DEFAULT_REMINDER_OFFSET_MINUTES * 60000 then
        some (T - DEFAULT_REMINDER_OFFSET_MINUTES * 60000, some aid)
      else none) ∧
    (T - DEFAULT_REMINDER_OFFSET_MINUTES * 60000 ≤ now →
      taskFlowSchedule s tk senderId prefs now true true msg = s) ∧
    (now < T - DEFAULT_REMINDER_OFFSET_MINUTES * 60000 →
      T - DEFAULT_REMINDER_OFFSET_MINUTES * 60000 ≤ now + JOB_OFFSET_MS →
      (taskFlowSchedule s tk senderId prefs now true true msg).fired =
        s.fired ++ [(freshRid s.nextRid, tk.id)]) ∧
    (now + JOB_OFFSET_MS < T - DEFAULT_REMINDER_OFFSET_MINUTES * 60000 →
      (taskFlowSchedule s tk senderId prefs now true true msg).fired = s.fired ∧
      (taskFlowSchedule s tk senderId prefs now true true msg).store =
        s.store ++ [⟨freshRid s.nextRid, tk.id, some aid,
          T - DEFAULT_REMINDER_OFFSET_MINUTES * 60000, false⟩] ∧
      (∃ u, liveTimer (taskFlowSchedule s tk senderId prefs now true true msg)
          (freshRid s.nextRid) = some u ∧
        u.runAt = T - DEFAULT_REMINDER_OFFSET_MINUTES * 60000)) := by
  have huid : resolvedUserId tk senderId = some aid := by
    unfold resolvedUserId
    rw [hassg]
    rfl
  have hoff : resolvedOffset prefs (some aid) = DEFAULT_REMINDER_OFFSET_MINUTES := by
    show (getOrCreate prefs aid).reminderOffsetMinutes.getD DEFAULT_REMINDER_OFFSET_MINUTES
      = DEFAULT_REMINDER_OFFSET_MINUTES
    unfold getOrCreate
    rw [hpref]
    rfl
  have hplan : reminderPlan tk senderId prefs now =
      if now < T - DEFAULT_REMINDER_OFFSET_MINUTES * 60000 then
        some (T - DEFAULT_REMINDER_OFFSET_MINUTES * 60000, some aid)
      else none := by
    unfold reminderPlan
    simp only [hdue, huid, hoff]
  have hh' : ({ s with store := s.store ++ [newReminder s tk (T - DEFAULT_REMINDER_OFFSET_MINUTES * 60000) (some aid)], nextRid := s.nextRid + 1 } : ServiceState).handlerSet = true := hh
  refine ⟨hplan, ?_, ?_, ?_⟩
  · intro him
    exact taskFlowSchedule_of_none true true msg (by rw [hplan, if_neg (not_lt.2 him)])
  · intro hlt him
    have hsome : reminderPlan tk senderId prefs now =
        some (T - DEFAULT_REMINDER_OFFSET_MINUTES * 60000, some aid) := by
      rw [hplan, if_pos hlt]
    have him' : (newReminder s tk (T - DEFAULT_REMINDER_OFFSET_MINUTES * 60000) (some aid)).remindAt ≤ now + JOB_OFFSET_MS := him
    rw [taskFlowSchedule_of_some true true msg hsome]
    rw [scheduleJob_fired _ _ _ _ _ _ _ hh', if_pos him']
    rfl
  · intro hfut
    have hlt : now < T - DEFAULT_REMINDER_OFFSET_MINUTES * 60000 := by
      have hj : JOB_OFFSET_MS = 5000 := rfl
      omega
    have hsome : reminderPlan tk senderId prefs now =
        some (T - DEFAULT_REMINDER_OFFSET_MINUTES * 60000, some aid) := by
      rw [hplan, if_pos hlt]
    have hf : ¬ ((newReminder s tk (T - DEFAULT_REMINDER_OFFSET_MINUTES * 60000) (some aid)).remindAt ≤ now + JOB_OFFSET_MS) :=
      not_le.2 hfut
    have hW' : WF { s with store := s.store ++ [newReminder s tk (T - DEFAULT_REMINDER_OFFSET_MINUTES * 60000) (some aid)], nextRid := s.nextRid + 1 } :=
      @WF.congr s
        { s with store := s.store ++ [newReminder s tk (T - DEFAULT_REMINDER_OFFSET_MINUTES * 60000) (some aid)], nextRid := s.nextRid + 1 }
        hW rfl rfl rfl
    refine ⟨?_, ?_, ?_⟩
    · rw [taskFlowSchedule_of_some true true msg hsome]
      rw [scheduleJob_fired _ _ _ _ _ _ _ hh', if_neg hf]
    · rw [taskFlowSchedule_of_some true true msg hsome]
      rw [scheduleJob_of_future _ _ _ hf]
      exact cancelExisting_store _ _
    · rw [taskFlowSchedule_of_some true true msg hsome]
      exact ⟨_, (liveTimer_some_iff (WF_scheduleJob hW' _ tk now true true msg)).2
        ((scheduleJob_IsLive_future hW' true true msg hf _).2 rfl), rfl⟩

/-- Witness for C7: task "tt" with due date `7200001` (so the planned
`remindAt` is `1`ms after epoch), assignee 42, evaluated at `now = 0`. -/
theorem claim_C7_witness :
    (reminderPlan ⟨"tt", some 7200001, some 42⟩ none [] 0 =
      if (0 : Int) < 7200001 - DEFAULT_REMINDER_OFFSET_MINUTES * 60000 then
        some (7200001 - DEFAULT_REMINDER_OFFSET_MINUTES * 60000, some 42)
      else none) ∧
    ((7200001 : Int) - DEFAULT_REMINDER_OFFSET_MINUTES * 60000 ≤ 0 →
      taskFlowSchedule { mkService [] [] with handlerSet := true }
          ⟨"tt", some 7200001, some 42⟩ none [] 0 true true "m" =
        { mkService [] [] with handlerSet := true }) ∧
    ((0 : Int) < 7200001 - DEFAULT_REMINDER_OFFSET_MINUTES * 60000 →
      (7200001 : Int) - DEFAULT_REMINDER_OFFSET_MINUTES * 60000 ≤ 0 + JOB_OFFSET_MS →
      (taskFlowSchedule { mkService [] [] with handlerSet := true }
          ⟨"tt", some 7200001, some 42⟩ none [] 0 true true "m").fired =
        [(freshRid 0, "tt")]) ∧
    ((0 : Int) + JOB_OFFSET_MS < 7200001 - DEFAULT_REMINDER_OFFSET_MINUTES * 60000 →
      (taskFlowSchedule { mkService [] [] with handlerSet := true }
          ⟨"tt", some 7200001, some 42⟩ none [] 0 true true "m").fired = [] ∧
      (taskFlowSchedule { mkService [] [] with handlerSet := true }
          ⟨"tt", some 7200001, some 42⟩ none [] 0 true true "m").store =
        [⟨freshRid 0, "tt", some 42,
          7200001 - DEFAULT_REMINDER_OFFSET_MINUTES * 60000, false⟩] ∧
      (∃ u, liveTimer (taskFlowSchedule { mkService [] [] with handlerSet := true }
            ⟨"tt", some 7200001, some 42⟩ none [] 0 true true "m") (freshRid 0) = some u ∧
        u.runAt = 7200001 - DEFAULT_REMINDER_OFFSET_MINUTES * 60000)) :=
  claim_C7 { mkService [] [] with handlerSet := true } ⟨"tt", some 7200001, some 42⟩
    7200001 42 none [] 0 "m" rfl rfl rfl rfl
    (@WF.congr (mkService [] []) { mkService [] [] with handlerSet := true }
      (WF_mkService [] []) rfl rfl rfl)

end MaxBot
